import Mathlib

/-!
# PetalSonic core — shallow embedding

A shallow embedding of the real-time audio pipeline of the petalsonic
repository, restricted to the parts the verified claims are about:

* playback instances and their cursor / state machine
  (src/petalsonic/src/playback.rs);
* the mixer block procedure (src/petalsonic-core/src/mixer.rs);
* the spatial processor's control flow around the external DSP library
  (src/petalsonic/src/spatial/processor.rs);
* the engine's command dispatch and event emission
  (src/petalsonic-core/src/engine.rs);
* the world facade (src/petalsonic-core/src/world.rs);
* the streaming resampler (src/petalsonic-core/src/audio_data/streaming_resampler.rs).

Audio samples (`f32` in the source) are modelled as rationals: all verified
claims are about control flow, frame counting, buffer index structure and
event emission, none about floating-point rounding.  The external DSP
library (audionimbus / Steam Audio, rubato) is out of scope of the spec and
is modelled by oracles: total functions (or `Option`-returning functions,
`none` modelling a DSP failure) supplied as structure fields.  The direction
normalization of `get_target_direction` (processor.rs:461-468) involves a
real square root and is absorbed into the encode oracle; no verified claim
constrains it.
-/

namespace PetalSonic

/-- Audio sample type. `f32` in the source, modelled as `ℚ`. -/
abbrev Sample := ℚ

/-- Immutable audio buffer: `PetalSonicAudioData` (audio_data/mod.rs), reduced
to the fields the claims read: mono sample list and sample rate.
`samples().len()` is `samples.length`. -/
structure AudioData where
  samples : List Sample
  sampleRate : ℕ
  deriving DecidableEq

/-- `LoopMode` (playback.rs:20-27). -/
inductive LoopMode where
  | once
  | infinite
  deriving DecidableEq

/-- `PlayState` (playback.rs:39-46). -/
inductive PlayState where
  | playing
  | paused
  | stopped
  deriving DecidableEq

/-- 3-vector over ℚ (math.rs `Vec3`); only carried through, never computed on
in the verified fragment. -/
structure Vec3 where
  x : ℚ
  y : ℚ
  z : ℚ
  deriving DecidableEq

/-- `SourceConfig` (config/source_config.rs). -/
inductive SourceConfig where
  | nonSpatial
  | spatial (position : Vec3) (volume : ℚ)
  deriving DecidableEq

/-- `SourceConfig::is_spatial` (source_config.rs). -/
def SourceConfig.isSpatial : SourceConfig → Bool
  | .nonSpatial => false
  | .spatial _ _ => true

/-- Error kind of `PetalSonicError` (error.rs), payload strings dropped. -/
inductive PetalSonicErrorKind where
  | audioFormat
  | audioLoading
  | audioDevice
  | engine
  | spatialAudio
  deriving DecidableEq

/-- `PlaybackInfo` (playback.rs:50-61). `current_time`/`total_time` are `f64`
in the source; modelled as ℚ. -/
structure PlaybackInfo where
  currentFrame : ℕ
  totalFrames : ℕ
  currentTime : ℚ
  totalTime : ℚ
  playState : PlayState
  deriving DecidableEq

/-- `PlaybackInfo::new` (playback.rs:64-73). -/
def PlaybackInfo.new (totalFrames : ℕ) (sampleRate : ℕ) : PlaybackInfo :=
  { currentFrame := 0
    totalFrames := totalFrames
    currentTime := 0
    totalTime := (totalFrames : ℚ) / (sampleRate : ℚ)
    playState := .stopped }

/-- `PlaybackInfo::update_position` (playback.rs:75-78): clamps the cursor to
`total_frames` and recomputes `current_time`. -/
def PlaybackInfo.updatePosition (info : PlaybackInfo) (currentFrame : ℕ)
    (sampleRate : ℕ) : PlaybackInfo :=
  let cf := min currentFrame info.totalFrames
  { info with currentFrame := cf, currentTime := (cf : ℚ) / (sampleRate : ℚ) }

/-- `PlaybackInfo::is_finished` (playback.rs:80-82). -/
def PlaybackInfo.isFinished (info : PlaybackInfo) : Bool :=
  info.totalFrames ≤ info.currentFrame

/-- `PlaybackInstance` (playback.rs:87-100).  `audio_id` is the `u64` of
`SourceId`, modelled as ℕ. -/
structure PlaybackInstance where
  audioId : ℕ
  audioData : AudioData
  info : PlaybackInfo
  config : SourceConfig
  loopMode : LoopMode
  reachedEndThisIteration : Bool
  deriving DecidableEq

namespace PlaybackInstance

/-- `PlaybackInstance::new` (playback.rs:103-121). -/
def new (audioId : ℕ) (audioData : AudioData) (config : SourceConfig)
    (loopMode : LoopMode) : PlaybackInstance :=
  { audioId := audioId
    audioData := audioData
    info := PlaybackInfo.new audioData.samples.length audioData.sampleRate
    config := config
    loopMode := loopMode
    reachedEndThisIteration := false }

/-- `PlaybackInstance::resume` (playback.rs:124-132). -/
def resume (inst : PlaybackInstance) : PlaybackInstance :=
  { inst with info := { inst.info with playState := .playing } }

/-- `PlaybackInstance::reset` (playback.rs:135-139). -/
def reset (inst : PlaybackInstance) : PlaybackInstance :=
  { inst with info := { inst.info with currentFrame := 0, currentTime := 0 } }

/-- `PlaybackInstance::play_from_beginning` (playback.rs:142-150):
reset then resume. -/
def playFromBeginning (inst : PlaybackInstance) : PlaybackInstance :=
  inst.reset.resume

/-- `PlaybackInstance::set_loop_mode` (playback.rs:153-161). -/
def setLoopMode (inst : PlaybackInstance) (loopMode : LoopMode) : PlaybackInstance :=
  { inst with loopMode := loopMode }

/-- `PlaybackInstance::pause` (playback.rs:164-171). -/
def pause (inst : PlaybackInstance) : PlaybackInstance :=
  { inst with info := { inst.info with playState := .paused } }

/-- `PlaybackInstance::stop` (playback.rs:174-181): keeps the cursor. -/
def stop (inst : PlaybackInstance) : PlaybackInstance :=
  { inst with info := { inst.info with playState := .stopped } }

/-- `PlaybackInstance::advance_and_check_completion` (playback.rs:198-220):
adds `frames_consumed` to the cursor, updates derived timing via
`update_position` (which clamps to `total_frames`), and if the updated
cursor has reached `samples().len()` sets the reached-end flag and the
state to `Stopped` — with no reference to the loop mode. -/
def advanceAndCheckCompletion (inst : PlaybackInstance) (framesConsumed : ℕ) :
    PlaybackInstance :=
  let cf := inst.info.currentFrame + framesConsumed
  let info := PlaybackInfo.updatePosition { inst.info with currentFrame := cf }
    cf inst.audioData.sampleRate
  if inst.audioData.samples.length ≤ info.currentFrame then
    { inst with
        info := { info with playState := .stopped }
        reachedEndThisIteration := true }
  else
    { inst with info := info }

/-- One pass of the channel inner loop of `fill_buffer` (playback.rs:251-256):
mix `sample` additively into every channel slot of frame `frameIdx`. -/
def mixFrameChannels (buffer : List Sample) (channels frameIdx : ℕ)
    (sample : Sample) : List Sample :=
  (List.range channels).foldl
    (fun b ch =>
      let bufferIdx := frameIdx * channels + ch
      if bufferIdx < b.length then b.set bufferIdx (b.getD bufferIdx 0 + sample)
      else b)
    buffer

/-- The frame loop of `fill_buffer` (playback.rs:240-259): walks output frames
upward from `frameIdx`, breaking at end of the audio data, mixing one mono
sample into all channels per frame, and counting frames filled.  The
`for frame_idx in 0..frame_count` loop is encoded structurally: `remaining`
counts the iterations left (`frame_count - frame_idx`). -/
def fillLoop (samples : List Sample) (currentFrame channels : ℕ) :
    List Sample → ℕ → ℕ → ℕ → List Sample × ℕ
  | buffer, _, 0, framesFilled => (buffer, framesFilled)
  | buffer, frameIdx, remaining + 1, framesFilled =>
    let sampleIdx := currentFrame + frameIdx
    if samples.length ≤ sampleIdx then (buffer, framesFilled)
    else
      let sample := samples.getD sampleIdx 0
      let buffer := mixFrameChannels buffer channels frameIdx sample
      fillLoop samples currentFrame channels buffer (frameIdx + 1) remaining
        (framesFilled + 1)

/-- `PlaybackInstance::fill_buffer` (playback.rs:230-267): returns 0 frames
unless Playing; otherwise mixes additively and — only when at least one
frame was filled — calls `advance_and_check_completion`.  Returns the
updated instance, the updated buffer, and the frames filled. -/
def fillBuffer (inst : PlaybackInstance) (buffer : List Sample) (channels : ℕ) :
    PlaybackInstance × List Sample × ℕ :=
  match inst.info.playState with
  | .playing =>
    let frameCount := buffer.length / channels
    let (buffer', framesFilled) :=
      fillLoop inst.audioData.samples inst.info.currentFrame channels buffer 0
        frameCount 0
    let inst' :=
      if 0 < framesFilled then inst.advanceAndCheckCompletion framesFilled
      else inst
    (inst', buffer', framesFilled)
  | _ => (inst, buffer, 0)

/-- `PlaybackInstance::check_and_clear_end_flag` (playback.rs:272-279). -/
def checkAndClearEndFlag (inst : PlaybackInstance) :
    Option LoopMode × PlaybackInstance :=
  if inst.reachedEndThisIteration then
    (some inst.loopMode, { inst with reachedEndThisIteration := false })
  else (none, inst)

/-- `matches!(instance.info.play_state, PlayState::Playing)` as used by the
mixer (mixer.rs:60). -/
def isPlaying (inst : PlaybackInstance) : Bool :=
  match inst.info.playState with
  | .playing => true
  | _ => false

end PlaybackInstance

/-- `PlaybackCommand` (playback.rs:296-307). -/
inductive PlaybackCommand where
  | play (id : ℕ) (config : SourceConfig) (loopMode : LoopMode)
  | pause (id : ℕ)
  | stop (id : ℕ)
  | stopAll
  | updateConfig (id : ℕ) (config : SourceConfig)
  deriving DecidableEq

/-!
## Spatial processor (src/petalsonic/src/spatial/processor.rs)

The Steam Audio primitives (context, simulator, HRTF, per-source direct and
encode effects, shared decode effect) live behind the audionimbus crate and
are out of the spec's scope; they are modelled by the `SpatialDsp` oracle.
A `none` result models a DSP failure surfaced as
`PetalSonicError::SpatialAudio` (`?` in the source).  `simulate`
(processor.rs:471-539) only pushes simulation inputs into the simulator and
cannot fail; its influence on the attenuation values is folded into the
`direct` oracle.
-/

/-- Oracle for the external audionimbus/Steam Audio effects. -/
structure SpatialDsp where
  createEffects : ℕ → Option Unit
  direct : ℕ → List Sample → Option (List Sample)
  encode : ℕ → Vec3 → List Sample → Option (List Sample)
  decodeInterleave : List Sample → Option (List Sample)

/-- `SpatialProcessor` (processor.rs:19-51), keeping the fields the claims
read: frame size, the per-source effects map (as the list of source ids
that have effects), and the cached accumulation / output buffers. -/
structure SpatialProcessor where
  frameSize : ℕ
  dsp : SpatialDsp
  effectsPresent : List ℕ
  cachedSummedEncodedBuf : List Sample
  cachedBinauralProcessed : List Sample

namespace SpatialProcessor

/-- The read loop of `fill_input_buffer` (processor.rs:270-282): the cached
input buffer is cleared, then each of the `frame_size` slots in range of
the audio data receives `sample * volume`. -/
def fillInputBufferSamples (frameSize : ℕ) (samples : List Sample)
    (currentFrame : ℕ) (volume : ℚ) : List Sample :=
  (List.range frameSize).map (fun i =>
    let sampleIdx := currentFrame + i
    if sampleIdx < samples.length then samples.getD sampleIdx 0 * volume else 0)

/-- The accumulation loop of `apply_ambisonics_encode_effect`
(processor.rs:395-398): add the encoded chunk into the summed buffer,
index by index over the encoded buffer's length. -/
def accumulateEncoded (summed encoded : List Sample) : List Sample :=
  (List.range encoded.length).foldl
    (fun s i => s.set i (s.getD i 0 + encoded.getD i 0)) summed

/-- `process_single_source` (processor.rs:240-267) together with the bodies
of `fill_input_buffer`, `apply_direct_effect` and
`apply_ambisonics_encode_effect` it calls.  Mutations made before a failure
(lazily created effects, the cursor advance inside `fill_input_buffer`)
persist, as they do through `&mut` in the source; the error, if any, is the
third component. -/
def processSingleSource (proc : SpatialProcessor) (sourceId : ℕ)
    (inst : PlaybackInstance) :
    SpatialProcessor × PlaybackInstance × Option PetalSonicErrorKind :=
  match inst.config with
  | .nonSpatial => (proc, inst, none)
  | .spatial position volume =>
    let created : Option SpatialProcessor :=
      if proc.effectsPresent.contains sourceId then some proc
      else
        match proc.dsp.createEffects sourceId with
        | some _ => some { proc with effectsPresent := sourceId :: proc.effectsPresent }
        | none => none
    match created with
    | none => (proc, inst, some .spatialAudio)
    | some proc =>
      let inputBuf := fillInputBufferSamples proc.frameSize
        inst.audioData.samples inst.info.currentFrame volume
      let inst := inst.advanceAndCheckCompletion proc.frameSize
      match proc.dsp.direct sourceId inputBuf with
      | none => (proc, inst, some .spatialAudio)
      | some directBuf =>
        match proc.dsp.encode sourceId position directBuf with
        | none => (proc, inst, some .spatialAudio)
        | some encoded =>
          ({ proc with cachedSummedEncodedBuf :=
              accumulateEncoded proc.cachedSummedEncodedBuf encoded },
           inst, none)

/-- The per-source loop of `process_spatial_sources` (processor.rs:222-224):
`?` stops at the first failing source, but state mutated so far persists. -/
def processList (proc : SpatialProcessor) :
    List (ℕ × PlaybackInstance) →
    SpatialProcessor × List (ℕ × PlaybackInstance) × Option PetalSonicErrorKind
  | [] => (proc, [], none)
  | (id, inst) :: rest =>
    match proc.processSingleSource id inst with
    | (proc', inst', some e) => (proc', (id, inst') :: rest, some e)
    | (proc', inst', none) =>
      let (proc'', rest', err) := proc'.processList rest
      (proc'', (id, inst') :: rest', err)

/-- The output copy loop of `process_spatial_sources` (processor.rs:230-234):
for each of the first `framesToCopy` frames, the left and right world-block
samples are ASSIGNED from the binaural buffer (not summed). -/
def copyBinauralToOutput (outputBuffer binaural : List Sample)
    (framesToCopy : ℕ) : List Sample :=
  (List.range framesToCopy).foldl
    (fun out i =>
      let out := out.set (i * 2) (binaural.getD (i * 2) 0)
      out.set (i * 2 + 1) (binaural.getD (i * 2 + 1) 0))
    outputBuffer

/-- The `&mut` state of one `process_spatial_sources` block, together with
its `Result<usize>`: the processor, the spatial instances, the shared
output buffer, the frames processed and the error, if any. -/
structure SpatialBlockResult where
  proc : SpatialProcessor
  instances : List (ℕ × PlaybackInstance)
  output : List Sample
  frames : ℕ
  err : Option PetalSonicErrorKind

/-- `process_spatial_sources` (processor.rs:203-237).  Empty instance list:
fill the output with silence, return 0 frames.  Otherwise: clear the cached
buffers, run each source (stopping at the first failure), decode the
accumulated ambisonics, and copy `min(output.len()/2, frame_size)` frames
of the binaural result over the output buffer. -/
def processSpatialSources (proc : SpatialProcessor)
    (instances : List (ℕ × PlaybackInstance)) (outputBuffer : List Sample) :
    SpatialBlockResult :=
  if instances.isEmpty then
    { proc := proc, instances := instances
      output := List.replicate outputBuffer.length 0, frames := 0, err := none }
  else
    let proc := { proc with
      cachedSummedEncodedBuf :=
        List.replicate proc.cachedSummedEncodedBuf.length 0
      cachedBinauralProcessed :=
        List.replicate proc.cachedBinauralProcessed.length 0 }
    match proc.processList instances with
    | (proc', instances', some e) =>
      { proc := proc', instances := instances', output := outputBuffer
        frames := 0, err := some e }
    | (proc', instances', none) =>
      match proc'.dsp.decodeInterleave proc'.cachedSummedEncodedBuf with
      | none =>
        { proc := proc', instances := instances', output := outputBuffer
          frames := 0, err := some .spatialAudio }
      | some binaural =>
        let proc'' := { proc' with cachedBinauralProcessed := binaural }
        let framesToCopy := min (outputBuffer.length / 2) proc''.frameSize
        let output := copyBinauralToOutput outputBuffer
          proc''.cachedBinauralProcessed framesToCopy
        { proc := proc'', instances := instances', output := output
          frames := framesToCopy, err := none }

end SpatialProcessor

/-!
## Mixer (src/petalsonic-core/src/mixer.rs)

The active-playback `HashMap` is modelled as an association list; the mixer
only partitions, maps and filters it, so the modelling is order-faithful up
to the map's (unspecified) iteration order, on which no claim depends.
The `try_lock` failure path (mixer.rs:40-47) is concurrency and is not
modelled.
-/

/-- `MixResult` (mixer.rs:11-15). -/
structure MixResult where
  framesFilled : ℕ
  completedSources : List ℕ
  loopedSources : List ℕ
  deriving DecidableEq

/-- The non-spatial pass of the mixer (mixer.rs:58-90): each instance that is
Playing and non-spatial gets `fill_buffer` against the shared world buffer;
the maximum frames filled is tracked.  Instances are partitioned by the
state and config they have when the mixer iterates (mixer.rs:58-82). -/
def mixNonSpatialPass :
    List (ℕ × PlaybackInstance) → List Sample → ℕ →
    List (ℕ × PlaybackInstance) × List Sample × ℕ
  | [], buffer, _ => ([], buffer, 0)
  | (id, inst) :: rest, buffer, channels =>
    if inst.isPlaying && !inst.config.isSpatial then
      let (inst', buffer', framesFilled) := inst.fillBuffer buffer channels
      let (rest', buffer'', fmax) := mixNonSpatialPass rest buffer' channels
      ((id, inst') :: rest', buffer'', max framesFilled fmax)
    else
      let (rest', buffer', fmax) := mixNonSpatialPass rest buffer channels
      ((id, inst) :: rest', buffer', fmax)

/-- Write the spatially processed instances back into the active map: the
source mutates them in place through `&mut` references (mixer.rs:78); with
an association-list model the update is a keyed merge. -/
def mergeById (entries updated : List (ℕ × PlaybackInstance)) :
    List (ℕ × PlaybackInstance) :=
  entries.map (fun e =>
    match updated.lookup e.1 with
    | some inst => (e.1, inst)
    | none => e)

/-- The spatial pass of the mixer (mixer.rs:92-109): if a processor is
available and the spatial list is non-empty, run `process_spatial_sources`
on the shared world buffer; on `Err` the error is logged and the frame
count is not taken (mixer.rs:99-102), while instance mutations persist. -/
def mixSpatialPass (entries : List (ℕ × PlaybackInstance))
    (buffer : List Sample) (processor : Option SpatialProcessor) :
    List (ℕ × PlaybackInstance) × List Sample × ℕ × Option SpatialProcessor :=
  let spatialInstances := entries.filter
    (fun e => e.2.isPlaying && e.2.config.isSpatial)
  match processor with
  | none => (entries, buffer, 0, none)
  | some proc =>
    if spatialInstances.isEmpty then (entries, buffer, 0, some proc)
    else
      let res := proc.processSpatialSources spatialInstances buffer
      match res.err with
      | none =>
        (mergeById entries res.instances, res.output, res.frames, some res.proc)
      | some _ =>
        (mergeById entries res.instances, res.output, 0, some res.proc)

/-- Passes 1-3 of the mixer block procedure: partition, non-spatial fill,
spatial processing (mixer.rs:49-109). -/
def mixFillStage (entries : List (ℕ × PlaybackInstance)) (buffer : List Sample)
    (channels : ℕ) (processor : Option SpatialProcessor) :
    List (ℕ × PlaybackInstance) × List Sample × ℕ × Option SpatialProcessor :=
  let (entries, buffer, fmaxNS) := mixNonSpatialPass entries buffer channels
  let (entries, buffer, fmaxSp, processor) := mixSpatialPass entries buffer processor
  (entries, buffer, max fmaxNS fmaxSp, processor)

/-- The end-flag pass of the mixer (mixer.rs:111-152): after all mixing, each
instance whose reached-end flag is set has the flag cleared; Once mode adds
the id to `completed_sources`, Infinite mode calls `play_from_beginning`
and adds the id to `looped_sources`. -/
def mixEventStage :
    List (ℕ × PlaybackInstance) →
    List (ℕ × PlaybackInstance) × List ℕ × List ℕ
  | [] => ([], [], [])
  | (id, inst) :: rest =>
    let (flag, inst') := inst.checkAndClearEndFlag
    let (rest', completed, looped) := mixEventStage rest
    match flag with
    | some .once => ((id, inst') :: rest', id :: completed, looped)
    | some .infinite =>
      ((id, inst'.playFromBeginning) :: rest', completed, id :: looped)
    | none => ((id, inst') :: rest', completed, looped)

/-- Result of one mixer block, bundling `MixResult` with the updated shared
state the source mutates in place. -/
structure MixOutput where
  result : MixResult
  buffer : List Sample
  entries : List (ℕ × PlaybackInstance)
  processor : Option SpatialProcessor

/-- `mix_playback_instances` (mixer.rs:34-171): fill stage, event stage, then
retain only unfinished instances (mixer.rs:154-157). -/
def mixPlaybackInstances (buffer : List Sample) (channels : ℕ)
    (entries : List (ℕ × PlaybackInstance))
    (processor : Option SpatialProcessor) : MixOutput :=
  let (entries, buffer, fmax, processor) :=
    mixFillStage entries buffer channels processor
  let (entries, completed, looped) := mixEventStage entries
  let entries := entries.filter (fun e => !e.2.info.isFinished)
  { result := { framesFilled := fmax, completedSources := completed,
                loopedSources := looped }
    buffer := buffer
    entries := entries
    processor := processor }

/-!
## Engine command dispatch and event emission
(src/petalsonic-core/src/engine.rs)
-/

/-- `PetalSonicEvent` (events.rs), restricted to the variants the claims are
about; `loop_count` is the `u32` carried by `SourceLooped`. -/
inductive PetalSonicEvent where
  | sourceCompleted (sourceId : ℕ)
  | sourceLooped (sourceId : ℕ) (loopCount : ℕ)
  | sourceStarted (sourceId : ℕ)
  | sourceStopped (sourceId : ℕ)
  deriving DecidableEq

/-- Insert-or-update on the active-playback association list, modelling
`active_playback.entry(id).or_insert_with(..)` followed by mutation
(engine.rs:707-723). -/
def upsert (entries : List (ℕ × PlaybackInstance)) (id : ℕ)
    (inst : PlaybackInstance) : List (ℕ × PlaybackInstance) :=
  if (entries.lookup id).isSome then
    entries.map (fun e => if e.1 = id then (id, inst) else e)
  else entries ++ [(id, inst)]

/-- One command of `process_playback_commands` (engine.rs:694-769):

* `Play`: missing audio data is logged and the command dropped; otherwise
  the instance is created if absent, its config and loop mode overwritten,
  and `play_from_beginning` called — unconditionally (engine.rs:720-723).
* `Pause`: `pause()` on the instance if present.
* `Stop`: the instance is REMOVED from the active map (engine.rs:738).
* `UpdateConfig`: overwrite config if present.
* `StopAll`: the map is cleared (engine.rs:767).
-/
def applyPlaybackCommand (storage : List (ℕ × AudioData))
    (entries : List (ℕ × PlaybackInstance)) (cmd : PlaybackCommand) :
    List (ℕ × PlaybackInstance) :=
  match cmd with
  | .play id config loopMode =>
    match storage.lookup id with
    | none => entries
    | some audioData =>
      let inst := (entries.lookup id).getD
        (PlaybackInstance.new id audioData config loopMode)
      let inst := { inst with config := config }
      let inst := inst.setLoopMode loopMode
      let inst := inst.playFromBeginning
      upsert entries id inst
  | .pause id =>
    entries.map (fun e => if e.1 = id then (id, e.2.pause) else e)
  | .stop id => entries.filter (fun e => e.1 != id)
  | .updateConfig id config =>
    entries.map (fun e => if e.1 = id then (id, { e.2 with config := config }) else e)
  | .stopAll => []

/-- `process_playback_commands` (engine.rs:685-771): drain the command
channel and apply each command in order. -/
def processPlaybackCommands (storage : List (ℕ × AudioData))
    (entries : List (ℕ × PlaybackInstance)) (cmds : List PlaybackCommand) :
    List (ℕ × PlaybackInstance) :=
  cmds.foldl (applyPlaybackCommand storage) entries

/-- The event-emission tail of `render_thread_loop` (engine.rs:461-490):
one `SourceCompleted` per completed id, then one `SourceLooped` per looped
id with `loop_count: 0` hard-coded (engine.rs:481). -/
def renderEmitEvents (completedSources loopedSources : List ℕ) :
    List PetalSonicEvent :=
  completedSources.map (fun id => .sourceCompleted id) ++
    loopedSources.map (fun id => .sourceLooped id 0)

/-!
## World facade (src/petalsonic-core/src/world.rs)

The crossbeam unbounded command channel is modelled as the list of commands
enqueued and not yet drained; `send` appends (it can only fail when the
receiver is dropped, which the engine never does while the world lives).
-/

/-- `PetalSonicWorld` (world.rs:34-42), restricted to the audio storage, the
per-source configs and the command channel. -/
structure PetalSonicWorld where
  storage : List (ℕ × AudioData)
  sourceConfigs : List (ℕ × SourceConfig)
  commandQueue : List PlaybackCommand
  deriving DecidableEq

/-- `PetalSonicWorld::contains_audio` (world.rs:122-124). -/
def PetalSonicWorld.containsAudio (w : PetalSonicWorld) (id : ℕ) : Bool :=
  (w.storage.lookup id).isSome

/-- `PetalSonicWorld::play` (world.rs:198-222): if the id is not in the audio
storage, return `PetalSonicError::Engine` — before touching the command
channel; otherwise look up the stored config (defaulting to non-spatial)
and enqueue `Play`. -/
def PetalSonicWorld.play (w : PetalSonicWorld) (audioId : ℕ)
    (loopMode : LoopMode) : PetalSonicWorld × Option PetalSonicErrorKind :=
  if !w.containsAudio audioId then (w, some .engine)
  else
    let config := (w.sourceConfigs.lookup audioId).getD .nonSpatial
    ({ w with commandQueue :=
        w.commandQueue ++ [.play audioId config loopMode] }, none)

/-!
## Streaming resampler
(src/petalsonic-core/src/audio_data/streaming_resampler.rs)

The inner rubato `FastFixedOut` resampler is external DSP; it is modelled by
an oracle giving, per `process` call (indexed by a call counter),
`input_frames_next()` and the produced output waves.  rubato's
`input_frames_next` sequence is independent of the sample values, and a
fixed-output resampler always produces a non-empty chunk; the latter is a
hypothesis (`hproduced`) of the contract theorem rather than baked into the
model.  `process` errors (`AudioLoading`) abort `process_interleaved`
before it returns a frame count and are not modelled.
-/

/-- Oracle for rubato's `FastFixedOut`: for the k-th `process` call, the
`input_frames_next()` value in force before it and the per-channel output
waves it produces from the drained input. -/
structure RubatoOracle where
  framesNeeded : ℕ → ℕ
  produce : ℕ → List (List Sample) → List (List Sample)

/-- `StreamingResampler` (streaming_resampler.rs:7-14): channel count, the
per-channel (non-interleaved) input accumulation buffer, the DSP oracle and
its call counter. -/
structure StreamingResampler where
  channels : ℕ
  inputBuffer : List (List Sample)
  oracle : RubatoOracle
  callCount : ℕ

namespace StreamingResampler

/-- Structural encoding of `input_samples.chunks_exact(channels)`
(streaming_resampler.rs:80): split into full frames, dropping any ragged
tail.  `fuel` bounds the number of chunks; every call site passes
`input.length`, which always suffices since each chunk removes at least
one element. -/
def framesExactFuel (channels : ℕ) : ℕ → List Sample → List (List Sample)
  | 0, _ => []
  | fuel + 1, input =>
    if 0 < channels ∧ channels ≤ input.length then
      input.take channels :: framesExactFuel channels fuel (input.drop channels)
    else []

/-- `input_samples.chunks_exact(channels)` (streaming_resampler.rs:80). -/
def framesExact (channels : ℕ) (input : List Sample) : List (List Sample) :=
  framesExactFuel channels input.length input

/-- The per-frame push of `deinterleave_and_buffer_input`
(streaming_resampler.rs:80-86): push `frame[ch_idx]` onto buffer `ch_idx`
for every channel index within the frame. -/
def pushFrame (bufs : List (List Sample)) (frame : List Sample) :
    List (List Sample) :=
  bufs.mapIdx (fun chIdx b =>
    if chIdx < frame.length then b ++ [frame.getD chIdx 0] else b)

/-- `deinterleave_and_buffer_input` (streaming_resampler.rs:78-87): append
each full input frame sample-wise onto the per-channel buffers. -/
def deinterleaveAndBufferInput (r : StreamingResampler)
    (inputSamples : List Sample) : StreamingResampler :=
  let frames := framesExact r.channels inputSamples
  { r with inputBuffer := frames.foldl pushFrame r.inputBuffer }

/-- Result of one `try_produce_resampled_chunk` call. -/
structure ChunkResult where
  out : List Sample
  outFrames : ℕ
  inFrames : ℕ
  st : StreamingResampler

/-- `try_produce_resampled_chunk` (streaming_resampler.rs:94-132): if fewer
than `input_frames_next()` frames are buffered on channel 0, do nothing;
otherwise drain exactly that many frames per channel, run the DSP, and
re-interleave into the output, truncated to the remaining capacity. -/
def tryProduceResampledChunk (r : StreamingResampler)
    (outputSamples : List Sample) (outFramesWritten outFramesCapacity : ℕ) :
    ChunkResult :=
  let channels := r.channels
  let framesNeeded := r.oracle.framesNeeded r.callCount
  if (r.inputBuffer.headD []).length < framesNeeded then
    { out := outputSamples, outFrames := 0, inFrames := 0, st := r }
  else
    let inputWaves := r.inputBuffer.map (fun b => b.take framesNeeded)
    let drained := r.inputBuffer.map (fun b => b.drop framesNeeded)
    let outputWaves := r.oracle.produce r.callCount inputWaves
    let producedFrames := (outputWaves.headD []).length
    let framesToCopy := min producedFrames (outFramesCapacity - outFramesWritten)
    let out := (List.range framesToCopy).foldl
      (fun out f =>
        (List.range channels).foldl
          (fun out ch =>
            out.set ((outFramesWritten + f) * channels + ch)
              ((outputWaves.getD ch []).getD f 0))
          out)
      outputSamples
    { out := out, outFrames := framesToCopy, inFrames := framesNeeded
      st := { r with inputBuffer := drained, callCount := r.callCount + 1 } }

/-- `zero_fill_output` (streaming_resampler.rs:135-143): if the output is not
completely filled, zero everything from `out_frames_written * channels` to
the end. -/
def zeroFillOutput (channels : ℕ) (outputSamples : List Sample)
    (outFramesWritten : ℕ) : List Sample :=
  let outFramesCapacity := outputSamples.length / channels
  if outFramesWritten < outFramesCapacity then
    let start := outFramesWritten * channels
    outputSamples.take start ++ List.replicate (outputSamples.length - start) 0
  else outputSamples

/-- Result of `process_interleaved`. -/
structure ProcessResult where
  out : List Sample
  written : ℕ
  consumed : ℕ
  st : StreamingResampler

/-- The chunk-production loop of `process_interleaved`
(streaming_resampler.rs:172-186): produce chunks until the output is full
or a call yields no output frames; note that a chunk whose
`chunk_out_frames` is 0 contributes nothing to `in_frames_consumed` even
if it drained input.  The `while` loop is encoded structurally on `fuel`;
every call site passes `cap + 1`, which always suffices because each
continuing iteration raises `written` by at least one and the loop stops
as soon as `written` reaches `cap`. -/
def produceLoop (cap : ℕ) : ℕ → StreamingResampler → List Sample → ℕ → ℕ →
    ProcessResult
  | 0, r, output, written, consumed =>
    { out := output, written := written, consumed := consumed, st := r }
  | fuel + 1, r, output, written, consumed =>
    if written < cap then
      let c := tryProduceResampledChunk r output written cap
      if c.outFrames = 0 then
        { out := c.out, written := written, consumed := consumed, st := c.st }
      else
        produceLoop cap fuel c.st c.out (written + c.outFrames)
          (consumed + c.inFrames)
    else { out := output, written := written, consumed := consumed, st := r }

/-- `process_interleaved` (streaming_resampler.rs:158-192): buffer the new
input, produce chunks, zero-fill the remainder, and return the output
together with `(frames_written, frames_consumed)`. -/
def processInterleaved (r : StreamingResampler) (inputSamples : List Sample)
    (outputSamples : List Sample) : ProcessResult :=
  let channels := r.channels
  let outFramesCapacity := outputSamples.length / channels
  let r := r.deinterleaveAndBufferInput inputSamples
  let res := produceLoop outFramesCapacity (outFramesCapacity + 1) r
    outputSamples 0 0
  { res with out := zeroFillOutput channels res.out res.written }

end StreamingResampler

/-!
## Observation helpers and lemmas on the active-playback association list
-/

/-- Cursor of a source in the active-playback map, if present. -/
def cursorOf (entries : List (ℕ × PlaybackInstance)) (id : ℕ) : Option ℕ :=
  (entries.lookup id).map (fun i => i.info.currentFrame)

/-- Play state of a source in the active-playback map, if present. -/
def stateOf (entries : List (ℕ × PlaybackInstance)) (id : ℕ) : Option PlayState :=
  (entries.lookup id).map (fun i => i.info.playState)

theorem lookup_map_key_update {β : Type} (entries : List (ℕ × β)) (id : ℕ)
    (f : β → β) :
    (entries.map (fun e => if e.1 = id then (id, f e.2) else e)).lookup id
      = (entries.lookup id).map f := by
  induction entries with
  | nil => rfl
  | cons e rest ih =>
    obtain ⟨k, v⟩ := e
    simp only [List.map_cons]
    by_cases h : k = id
    · subst h
      rw [if_pos rfl]
      simp [List.lookup_cons, ih]
    · rw [if_neg h]
      have hb : (id == k) = false := by simp [Ne.symm h]
      simp [List.lookup_cons, hb, ih]

theorem lookup_append_right {β : Type} (entries : List (ℕ × β)) (id : ℕ)
    (v : β) (h : entries.lookup id = none) :
    (entries ++ [(id, v)]).lookup id = some v := by
  induction entries with
  | nil => simp [List.lookup_cons]
  | cons e rest ih =>
    obtain ⟨k, w⟩ := e
    by_cases hk : k = id
    · subst hk
      simp [List.lookup_cons] at h
    · have hb : (id == k) = false := by simp [Ne.symm hk]
      simp only [List.lookup_cons, hb, List.cons_append] at h ⊢
      exact ih h

theorem lookup_upsert_self (entries : List (ℕ × PlaybackInstance)) (id : ℕ)
    (inst : PlaybackInstance) :
    (upsert entries id inst).lookup id = some inst := by
  unfold upsert
  by_cases h : (entries.lookup id).isSome
  · rw [if_pos h]
    have hu := lookup_map_key_update entries id (fun _ => inst)
    rcases h' : entries.lookup id with _ | v
    · rw [h'] at h
      simp at h
    · simpa [h'] using hu
  · rw [if_neg h]
    rcases h' : entries.lookup id with _ | v
    · exact lookup_append_right entries id inst h'
    · rw [h'] at h
      simp at h

theorem lookup_filter_bne_self (entries : List (ℕ × PlaybackInstance)) (id : ℕ) :
    (entries.filter (fun e => e.1 != id)).lookup id = none := by
  induction entries with
  | nil => rfl
  | cons e rest ih =>
    obtain ⟨k, v⟩ := e
    by_cases h : k = id
    · subst h
      simpa [List.filter_cons] using ih
    · have hb : (id == k) = false := by simp [Ne.symm h]
      simp [List.filter_cons, h, List.lookup_cons, hb, ih]

theorem lookup_filter_bne_other (entries : List (ℕ × PlaybackInstance))
    (id j : ℕ) (hj : j ≠ id) :
    (entries.filter (fun e => e.1 != id)).lookup j = entries.lookup j := by
  induction entries with
  | nil => rfl
  | cons e rest ih =>
    obtain ⟨k, v⟩ := e
    by_cases h : k = id
    · subst h
      have hb : (j == k) = false := by simp [hj]
      simp [List.filter_cons, List.lookup_cons, hb, ih]
    · by_cases hkj : k = j
      · subst hkj
        simp [List.filter_cons, h, List.lookup_cons]
      · have hb : (j == k) = false := by simp [Ne.symm hkj]
        simp [List.filter_cons, h, List.lookup_cons, hb, ih]

/-!
## Concrete fixtures used by witnesses and counterexamples

The arithmetic of `ℚ` is `[irreducible]` in core, which blocks the
elaborator-side evaluation `decide` performs on concrete runs; restoring the
default reducibility locally lets the concrete fixtures evaluate.
-/

attribute [local semireducible] Rat.add Rat.mul Rat.sub Rat.inv

/-- Ten mono frames of value 1 at 10 Hz. -/
def audio10 : AudioData := { samples := List.replicate 10 1, sampleRate := 10 }

/-- An instance of `audio10` currently Playing at frame 5. -/
def instPlaying5 : PlaybackInstance :=
  { audioId := 0
    audioData := audio10
    info := { currentFrame := 5, totalFrames := 10, currentTime := 1/2
              totalTime := 1, playState := .playing }
    config := .nonSpatial
    loopMode := .once
    reachedEndThisIteration := false }

/-- World storage holding `audio10` under id 0. -/
def storage0 : List (ℕ × AudioData) := [(0, audio10)]

/-!
## C9 — `play` on an unknown id
-/

/-- C9: calling the world's `play(id, loop_mode)` with an id that is not in
the audio storage returns an Engine error and leaves the world — in
particular the command channel — exactly as it was: nothing is enqueued. -/
theorem c9_play_unknown_id (w : PetalSonicWorld) (audioId : ℕ)
    (loopMode : LoopMode) (h : w.containsAudio audioId = false) :
    (w.play audioId loopMode).2 = some PetalSonicErrorKind.engine
    ∧ (w.play audioId loopMode).1 = w
    ∧ (w.play audioId loopMode).1.commandQueue = w.commandQueue := by
  simp [PetalSonicWorld.play, h]

/-- Witness for C9 at a world with empty storage and a sentinel command
already in the queue. -/
theorem c9_witness :
    ((PetalSonicWorld.mk [] [] [PlaybackCommand.stopAll]).play 3 LoopMode.once).2
        = some PetalSonicErrorKind.engine
    ∧ ((PetalSonicWorld.mk [] [] [PlaybackCommand.stopAll]).play 3 LoopMode.once).1
        = PetalSonicWorld.mk [] [] [PlaybackCommand.stopAll]
    ∧ ((PetalSonicWorld.mk [] [] [PlaybackCommand.stopAll]).play 3 LoopMode.once).1.commandQueue
        = (PetalSonicWorld.mk [] [] [PlaybackCommand.stopAll]).commandQueue :=
  c9_play_unknown_id (PetalSonicWorld.mk [] [] [PlaybackCommand.stopAll]) 3
    LoopMode.once (by decide)

/-!
## C10 — `SourceLooped` always carries `loop_count = 0`
-/

/-- C10: every `SourceLooped` event emitted by the render thread's event
emission carries `loop_count = 0`, for every source and every loop
iteration — the emission site hard-codes the count (engine.rs:481). -/
theorem c10_source_looped_count_zero (completedSources loopedSources : List ℕ)
    (id loopCount : ℕ)
    (h : PetalSonicEvent.sourceLooped id loopCount
          ∈ renderEmitEvents completedSources loopedSources) :
    loopCount = 0 := by
  simp only [renderEmitEvents, List.mem_append, List.mem_map] at h
  rcases h with ⟨_, _, h⟩ | ⟨_, _, h⟩
  · cases h
  · cases h
    rfl

/-- Witness for C10: the event emitted for looped source 5. -/
theorem c10_witness : (0 : ℕ) = 0 :=
  c10_source_looped_count_zero [] [5] 5 0 (by simp [renderEmitEvents])

/-!
## C3 — Pause then Play does not preserve the cursor

The engine's `Play` handler (engine.rs:695-724) unconditionally calls
`play_from_beginning()` on the (existing or fresh) instance, so a `Play`
after a `Pause` restarts at frame 0; the paused cursor is not restored.
-/

/-- Counterexample to C3: an instance paused at frame 5 is at frame 0 — not
5 — after the subsequent `Play` takes effect. -/
theorem c3_counterexample :
    cursorOf (processPlaybackCommands storage0 [(0, instPlaying5)]
      [PlaybackCommand.pause 0]) 0 = some 5
    ∧ cursorOf (processPlaybackCommands storage0
        (processPlaybackCommands storage0 [(0, instPlaying5)]
          [PlaybackCommand.pause 0])
        [PlaybackCommand.play 0 SourceConfig.nonSpatial LoopMode.once]) 0
      = some 0
    ∧ (some 0 : Option ℕ) ≠ some 5 := by
  decide

/-- C3 (amended): after `Pause(id)` followed by `Play(id, _, _)` on a source
whose audio data is registered, the instance's cursor is 0 and its state is
Playing: `Play` always restarts from the beginning and the pre-pause
position is discarded.  There is no cursor-preserving resume path through
the `Play` command. -/
theorem c3_play_restarts_from_beginning (storage : List (ℕ × AudioData))
    (entries : List (ℕ × PlaybackInstance)) (id : ℕ) (audioData : AudioData)
    (config : SourceConfig) (loopMode : LoopMode)
    (h : storage.lookup id = some audioData) :
    cursorOf (processPlaybackCommands storage entries
      [PlaybackCommand.pause id, PlaybackCommand.play id config loopMode]) id
      = some 0
    ∧ stateOf (processPlaybackCommands storage entries
        [PlaybackCommand.pause id, PlaybackCommand.play id config loopMode]) id
      = some PlayState.playing := by
  have hmain : ∀ (m1 : List (ℕ × PlaybackInstance)),
      cursorOf (applyPlaybackCommand storage m1
        (PlaybackCommand.play id config loopMode)) id = some 0
      ∧ stateOf (applyPlaybackCommand storage m1
          (PlaybackCommand.play id config loopMode)) id
        = some PlayState.playing := by
    intro m1
    simp only [applyPlaybackCommand, h]
    constructor
    · unfold cursorOf
      rw [lookup_upsert_self]
      simp [PlaybackInstance.playFromBeginning, PlaybackInstance.reset,
        PlaybackInstance.resume]
    · unfold stateOf
      rw [lookup_upsert_self]
      simp [PlaybackInstance.playFromBeginning, PlaybackInstance.reset,
        PlaybackInstance.resume]
  simpa [processPlaybackCommands] using
    hmain (applyPlaybackCommand storage entries (PlaybackCommand.pause id))

/-- Witness for C3's amended theorem at the concrete paused instance. -/
theorem c3_witness :
    cursorOf (processPlaybackCommands storage0 [(0, instPlaying5)]
      [PlaybackCommand.pause 0,
       PlaybackCommand.play 0 SourceConfig.nonSpatial LoopMode.once]) 0
      = some 0
    ∧ stateOf (processPlaybackCommands storage0 [(0, instPlaying5)]
        [PlaybackCommand.pause 0,
         PlaybackCommand.play 0 SourceConfig.nonSpatial LoopMode.once]) 0
      = some PlayState.playing :=
  c3_play_restarts_from_beginning storage0 [(0, instPlaying5)] 0 audio10
    SourceConfig.nonSpatial LoopMode.once (by decide)

/-!
## C4 — explicit `Stop` removes the instance

The engine's `Stop` handler (engine.rs:736-746) calls
`active_playback.remove(&audio_id)`: the instance is dropped from the
active map, it is not transitioned to Stopped in place, and its cursor is
not retained anywhere.
-/

/-- Counterexample to C4: after `Stop(0)` on an instance playing at frame 5,
no instance remains at all — there is no Stopped instance whose cursor is
the pre-command value. -/
theorem c4_counterexample :
    processPlaybackCommands storage0 [(0, instPlaying5)]
      [PlaybackCommand.stop 0] = []
    ∧ stateOf (processPlaybackCommands storage0 [(0, instPlaying5)]
        [PlaybackCommand.stop 0]) 0 = none
    ∧ cursorOf (processPlaybackCommands storage0 [(0, instPlaying5)]
        [PlaybackCommand.stop 0]) 0 = none := by
  decide

/-- C4 (amended): dispatching `Stop(id)` removes the playback instance for
`id` from the active playback map (discarding its state and cursor), from
any play state, while every other entry is left untouched.
`PlaybackInstance::stop` — which would keep the cursor — is never called on
this path. -/
theorem c4_stop_removes_instance (storage : List (ℕ × AudioData))
    (entries : List (ℕ × PlaybackInstance)) (id : ℕ) :
    (processPlaybackCommands storage entries [PlaybackCommand.stop id]).lookup id
      = none
    ∧ ∀ j, j ≠ id →
        (processPlaybackCommands storage entries
          [PlaybackCommand.stop id]).lookup j = entries.lookup j := by
  simp only [processPlaybackCommands, List.foldl_cons, List.foldl_nil,
    applyPlaybackCommand]
  exact ⟨lookup_filter_bne_self entries id,
    fun j hj => lookup_filter_bne_other entries id j hj⟩

/-- Witness for C4's amended theorem: removal of source 0 and preservation of
an unrelated source 1. -/
theorem c4_witness :
    (processPlaybackCommands storage0 [(0, instPlaying5), (1, instPlaying5)]
        [PlaybackCommand.stop 0]).lookup 0 = none
    ∧ (processPlaybackCommands storage0 [(0, instPlaying5), (1, instPlaying5)]
        [PlaybackCommand.stop 0]).lookup 1
      = [(0, instPlaying5), (1, instPlaying5)].lookup 1 :=
  ⟨(c4_stop_removes_instance storage0 [(0, instPlaying5), (1, instPlaying5)] 0).1,
   (c4_stop_removes_instance storage0 [(0, instPlaying5), (1, instPlaying5)] 0).2
     1 (by decide)⟩

/-!
## C6 — zero-frame audio emits no completion event (code bug)

With the `fill_buffer` of src/petalsonic/src/playback.rs, a zero-frame
buffer makes the frame loop break immediately with `frames_filled == 0`,
so `advance_and_check_completion` is never called (playback.rs:262-264),
the reached-end flag is never set, and the mixer removes the instance via
its retain pass without ever adding it to `completed_sources`: no
`SourceCompleted` event is emitted, on the first render block or ever.
The claim's remaining part — the source contributes no output samples —
does hold (the world block is unchanged).
-/

/-- Zero-frame audio buffer. -/
def audioZero : AudioData := { samples := [], sampleRate := 48000 }

/-- C6, evaluated at the failing input: `Play(7, _, Once)` on a zero-frame
source, then one render block.  The block produces no `SourceCompleted`
(and no event at all), leaves the world buffer untouched, and silently
drops the instance from the active map. -/
theorem c6_zero_frames_no_completion_event :
    (mixPlaybackInstances (List.replicate 4 0) 2
        (processPlaybackCommands [(7, audioZero)] []
          [PlaybackCommand.play 7 SourceConfig.nonSpatial LoopMode.once])
        none).result.completedSources = []
    ∧ (mixPlaybackInstances (List.replicate 4 0) 2
        (processPlaybackCommands [(7, audioZero)] []
          [PlaybackCommand.play 7 SourceConfig.nonSpatial LoopMode.once])
        none).result.loopedSources = []
    ∧ (mixPlaybackInstances (List.replicate 4 0) 2
        (processPlaybackCommands [(7, audioZero)] []
          [PlaybackCommand.play 7 SourceConfig.nonSpatial LoopMode.once])
        none).buffer = List.replicate 4 0
    ∧ (mixPlaybackInstances (List.replicate 4 0) 2
        (processPlaybackCommands [(7, audioZero)] []
          [PlaybackCommand.play 7 SourceConfig.nonSpatial LoopMode.once])
        none).entries = []
    ∧ renderEmitEvents
        (mixPlaybackInstances (List.replicate 4 0) 2
          (processPlaybackCommands [(7, audioZero)] []
            [PlaybackCommand.play 7 SourceConfig.nonSpatial LoopMode.once])
          none).result.completedSources
        (mixPlaybackInstances (List.replicate 4 0) 2
          (processPlaybackCommands [(7, audioZero)] []
            [PlaybackCommand.play 7 SourceConfig.nonSpatial LoopMode.once])
          none).result.loopedSources = [] := by
  decide

/-!
## C2 — advance-and-check-completion and the mixer's restart of Infinite
-/

theorem advance_currentFrame (inst : PlaybackInstance) (k : ℕ) :
    (inst.advanceAndCheckCompletion k).info.currentFrame
      = min (inst.info.currentFrame + k) inst.info.totalFrames := by
  simp only [PlaybackInstance.advanceAndCheckCompletion, PlaybackInfo.updatePosition]
  split <;> rfl

theorem advance_currentTime (inst : PlaybackInstance) (k : ℕ) :
    (inst.advanceAndCheckCompletion k).info.currentTime
      = (((inst.advanceAndCheckCompletion k).info.currentFrame : ℚ)
          / (inst.audioData.sampleRate : ℚ)) := by
  simp only [PlaybackInstance.advanceAndCheckCompletion, PlaybackInfo.updatePosition]
  split <;> rfl

theorem advance_setLoopMode_comm (inst : PlaybackInstance) (k : ℕ) (m : LoopMode) :
    ((inst.setLoopMode m).advanceAndCheckCompletion k)
      = (inst.advanceAndCheckCompletion k).setLoopMode m := by
  simp only [PlaybackInstance.advanceAndCheckCompletion, PlaybackInstance.setLoopMode,
    PlaybackInfo.updatePosition]
  split <;> rfl

theorem advance_end (inst : PlaybackInstance) (k : ℕ)
    (hwf : inst.info.totalFrames = inst.audioData.samples.length)
    (hend : inst.info.totalFrames ≤ inst.info.currentFrame + k) :
    (inst.advanceAndCheckCompletion k).reachedEndThisIteration = true
    ∧ (inst.advanceAndCheckCompletion k).info.playState = PlayState.stopped := by
  simp only [PlaybackInstance.advanceAndCheckCompletion, PlaybackInfo.updatePosition]
  rw [if_pos (by omega)]
  exact ⟨rfl, rfl⟩

theorem advance_not_end (inst : PlaybackInstance) (k : ℕ)
    (hwf : inst.info.totalFrames = inst.audioData.samples.length)
    (hend : inst.info.currentFrame + k < inst.info.totalFrames) :
    (inst.advanceAndCheckCompletion k).reachedEndThisIteration
        = inst.reachedEndThisIteration
    ∧ (inst.advanceAndCheckCompletion k).info.playState = inst.info.playState := by
  simp only [PlaybackInstance.advanceAndCheckCompletion, PlaybackInfo.updatePosition]
  rw [if_neg (by omega)]
  exact ⟨rfl, rfl⟩

theorem mixEventStage_cons_infinite (id : ℕ) (inst : PlaybackInstance)
    (rest : List (ℕ × PlaybackInstance))
    (hflag : inst.reachedEndThisIteration = true)
    (hmode : inst.loopMode = LoopMode.infinite) :
    (mixEventStage ((id, inst) :: rest)).1
      = (id, ({ inst with reachedEndThisIteration := false
              } : PlaybackInstance).playFromBeginning) :: (mixEventStage rest).1
    ∧ (mixEventStage ((id, inst) :: rest)).2.2 = id :: (mixEventStage rest).2.2
    ∧ (mixEventStage ((id, inst) :: rest)).2.1 = (mixEventStage rest).2.1 := by
  rcases h : mixEventStage rest with ⟨a, b, c⟩
  simp [mixEventStage, PlaybackInstance.checkAndClearEndFlag, hflag, hmode, h]

theorem mixEventStage_cons_once (id : ℕ) (inst : PlaybackInstance)
    (rest : List (ℕ × PlaybackInstance))
    (hflag : inst.reachedEndThisIteration = true)
    (hmode : inst.loopMode = LoopMode.once) :
    (mixEventStage ((id, inst) :: rest)).2.1 = id :: (mixEventStage rest).2.1 := by
  rcases h : mixEventStage rest with ⟨a, b, c⟩
  simp [mixEventStage, PlaybackInstance.checkAndClearEndFlag, hflag, hmode, h]

theorem mix_buffer_eq_fillStage (buffer : List Sample) (channels : ℕ)
    (entries : List (ℕ × PlaybackInstance))
    (processor : Option SpatialProcessor) :
    (mixPlaybackInstances buffer channels entries processor).buffer
      = (mixFillStage entries buffer channels processor).2.1 := by
  rcases h1 : mixFillStage entries buffer channels processor with ⟨e1, b1, f1, p1⟩
  rcases h2 : mixEventStage e1 with ⟨e2, comp, looped⟩
  simp [mixPlaybackInstances, h1, h2]

/-- C2: whenever an instance consumes `k` frames,
`advance_and_check_completion` adds `k` to the cursor (the stored cursor
being the derived-timing update's clamp `min (cursor + k) total_frames`),
recomputes `current_time` from the updated cursor, and — when the advanced
cursor reaches or exceeds `total_frames` — sets the reached-end flag and
transitions the state to Stopped, independently of the loop mode (the
operation commutes with `set_loop_mode`).  In the mixer's end-flag pass, a
flagged Infinite instance is restarted via `play_from_beginning` and
reported in `looped_sources` (a flagged Once instance goes to
`completed_sources`), and the block's output buffer is fully determined by
the fill stage: the post-restart instance contributes no frames within the
same block. -/
theorem c2_advance_uniform_completion :
    (∀ (inst : PlaybackInstance) (k : ℕ),
      (inst.advanceAndCheckCompletion k).info.currentFrame
          = min (inst.info.currentFrame + k) inst.info.totalFrames
      ∧ (inst.advanceAndCheckCompletion k).info.currentTime
          = (((inst.advanceAndCheckCompletion k).info.currentFrame : ℚ)
              / (inst.audioData.sampleRate : ℚ))
      ∧ (∀ m, (inst.setLoopMode m).advanceAndCheckCompletion k
            = (inst.advanceAndCheckCompletion k).setLoopMode m)
      ∧ (inst.info.totalFrames = inst.audioData.samples.length →
          (inst.info.totalFrames ≤ inst.info.currentFrame + k →
            (inst.advanceAndCheckCompletion k).reachedEndThisIteration = true
            ∧ (inst.advanceAndCheckCompletion k).info.playState
                = PlayState.stopped)
          ∧ (inst.info.currentFrame + k < inst.info.totalFrames →
            (inst.advanceAndCheckCompletion k).reachedEndThisIteration
                = inst.reachedEndThisIteration
            ∧ (inst.advanceAndCheckCompletion k).info.playState
                = inst.info.playState)))
    ∧ (∀ (id : ℕ) (inst : PlaybackInstance)
        (rest : List (ℕ × PlaybackInstance)),
        inst.reachedEndThisIteration = true →
        (inst.loopMode = LoopMode.infinite →
          (mixEventStage ((id, inst) :: rest)).1
            = (id, ({ inst with reachedEndThisIteration := false
                    } : PlaybackInstance).playFromBeginning)
                :: (mixEventStage rest).1
          ∧ (mixEventStage ((id, inst) :: rest)).2.2
            = id :: (mixEventStage rest).2.2)
        ∧ (inst.loopMode = LoopMode.once →
          (mixEventStage ((id, inst) :: rest)).2.1
            = id :: (mixEventStage rest).2.1))
    ∧ (∀ (buffer : List Sample) (channels : ℕ)
        (entries : List (ℕ × PlaybackInstance))
        (processor : Option SpatialProcessor),
        (mixPlaybackInstances buffer channels entries processor).buffer
          = (mixFillStage entries buffer channels processor).2.1) := by
  refine ⟨fun inst k => ⟨advance_currentFrame inst k, advance_currentTime inst k,
      fun m => advance_setLoopMode_comm inst k m, fun hwf =>
        ⟨fun hend => advance_end inst k hwf hend,
         fun hlt => advance_not_end inst k hwf hlt⟩⟩,
    fun id inst rest hflag =>
      ⟨fun hmode => ⟨(mixEventStage_cons_infinite id inst rest hflag hmode).1,
        (mixEventStage_cons_infinite id inst rest hflag hmode).2.1⟩,
       fun hmode => mixEventStage_cons_once id inst rest hflag hmode⟩,
    fun buffer channels entries processor =>
      mix_buffer_eq_fillStage buffer channels entries processor⟩

/-- Witness for C2: the instance playing `audio10` at frame 5 that consumes 7
frames reaches the end, gets its flag set and stops. -/
theorem c2_witness :
    (instPlaying5.advanceAndCheckCompletion 7).reachedEndThisIteration = true
    ∧ (instPlaying5.advanceAndCheckCompletion 7).info.playState
        = PlayState.stopped :=
  ((c2_advance_uniform_completion.1 instPlaying5 7).2.2.2 (by decide)).1
    (by decide)

/-!
## C1 — the spatial output overwrites the world block

`process_spatial_sources` writes its binaural result into the shared world
block with plain assignment (processor.rs:231-234: `output_buffer[i * 2] =
...`), not `+=`: the first `min(output.len() / 2, frame_size)` frames of
non-spatial content are replaced, not summed over.
-/

theorem getD_set_ne (l : List Sample) (i j : ℕ) (v : Sample) (h : i ≠ j) :
    (l.set i v).getD j 0 = l.getD j 0 := by
  simp [List.getD_eq_getElem?_getD, List.getElem?_set_ne h]

theorem getD_set_self (l : List Sample) (i : ℕ) (v : Sample) (h : i < l.length) :
    (l.set i v).getD i 0 = v := by
  simp [List.getD_eq_getElem?_getD, List.getElem?_set_self, h]

namespace SpatialProcessor

theorem copy_succ (out bin : List Sample) (n : ℕ) :
    copyBinauralToOutput out bin (n + 1)
      = ((copyBinauralToOutput out bin n).set (n * 2) (bin.getD (n * 2) 0)).set
          (n * 2 + 1) (bin.getD (n * 2 + 1) 0) := by
  simp [copyBinauralToOutput, List.range_succ]

theorem copy_length (out bin : List Sample) (n : ℕ) :
    (copyBinauralToOutput out bin n).length = out.length := by
  induction n with
  | zero => rfl
  | succ n ih => simp [copy_succ, ih]

theorem copy_getD_ge (out bin : List Sample) (n j : ℕ) (hj : 2 * n ≤ j) :
    (copyBinauralToOutput out bin n).getD j 0 = out.getD j 0 := by
  induction n with
  | zero => rfl
  | succ n ih =>
    rw [copy_succ, getD_set_ne _ _ _ _ (by omega), getD_set_ne _ _ _ _ (by omega)]
    exact ih (by omega)

theorem copy_getD_lt (out bin : List Sample) (n i : ℕ) (hi : i < n)
    (hlen : 2 * n ≤ out.length) :
    (copyBinauralToOutput out bin n).getD (i * 2) 0 = bin.getD (i * 2) 0
    ∧ (copyBinauralToOutput out bin n).getD (i * 2 + 1) 0
        = bin.getD (i * 2 + 1) 0 := by
  induction n with
  | zero => omega
  | succ n ih =>
    rcases Nat.lt_succ_iff_lt_or_eq.mp hi with h | h
    · have h1 := ih h (by omega)
      rw [copy_succ, getD_set_ne _ _ _ _ (by omega), getD_set_ne _ _ _ _ (by omega),
        getD_set_ne _ _ _ _ (by omega), getD_set_ne _ _ _ _ (by omega)]
      exact h1
    · subst h
      constructor
      · rw [copy_succ, getD_set_ne _ _ _ _ (by omega),
          getD_set_self _ _ _ (by rw [copy_length]; omega)]
      · rw [copy_succ,
          getD_set_self _ _ _ (by rw [List.length_set, copy_length]; omega)]

theorem processSingleSource_frameSize (proc : SpatialProcessor) (id : ℕ)
    (inst : PlaybackInstance) :
    (proc.processSingleSource id inst).1.frameSize = proc.frameSize := by
  unfold SpatialProcessor.processSingleSource
  split
  · rfl
  · split
    · dsimp only
      split
      · rfl
      · split <;> rfl
    · split
      · dsimp only
        split
        · rfl
        · split <;> rfl
      · rfl

theorem processList_frameSize (l : List (ℕ × PlaybackInstance))
    (proc : SpatialProcessor) :
    (proc.processList l).1.frameSize = proc.frameSize := by
  induction l generalizing proc with
  | nil => rfl
  | cons e rest ih =>
    obtain ⟨id, inst⟩ := e
    have h1 := processSingleSource_frameSize proc id inst
    rcases hs : proc.processSingleSource id inst with ⟨p2, i2, err2⟩
    rw [hs] at h1
    cases err2 with
    | some e' => simpa [SpatialProcessor.processList, hs] using h1
    | none =>
      rcases hr : p2.processList rest with ⟨p3, i3, err3⟩
      have h2 := ih p2
      rw [hr] at h2
      simp only [SpatialProcessor.processList, hs, hr]
      rw [h2, h1]

end SpatialProcessor

/-- The binaural output cached in an optional spatial processor. -/
def binauralOf (processor : Option SpatialProcessor) : List Sample :=
  match processor with
  | some p => p.cachedBinauralProcessed
  | none => []

/-- DSP oracle for the C1 fixture: effects always succeed, the direct and
encode stages are identity on the sample payload, and the shared decode
produces the constant binaural block `[5, 5, 5, 5]`. -/
def dspC1 : SpatialDsp :=
  { createEffects := fun _ => some ()
    direct := fun _ buf => some buf
    encode := fun _ _ buf => some buf
    decodeInterleave := fun _ => some [5, 5, 5, 5] }

/-- Two mono frames of value 1 at 10 Hz. -/
def spAudio2 : AudioData := { samples := [1, 1], sampleRate := 10 }

/-- Non-spatial instance of `spAudio2`, Playing at frame 0. -/
def nsInstC1 : PlaybackInstance :=
  { audioId := 1
    audioData := spAudio2
    info := { currentFrame := 0, totalFrames := 2, currentTime := 0
              totalTime := 1/5, playState := .playing }
    config := .nonSpatial
    loopMode := .once
    reachedEndThisIteration := false }

/-- Spatial instance of `spAudio2`, Playing at frame 0, volume 1. -/
def spInstC1 : PlaybackInstance :=
  { nsInstC1 with audioId := 2, config := .spatial ⟨1, 0, 0⟩ 1 }

/-- Spatial processor fixture for a 2-frame block. -/
def procC1 : SpatialProcessor :=
  { frameSize := 2
    dsp := dspC1
    effectsPresent := []
    cachedSummedEncodedBuf := List.replicate 18 0
    cachedBinauralProcessed := List.replicate 4 0 }

/-- One non-spatial and one spatial instance, both Playing. -/
def entriesC1 : List (ℕ × PlaybackInstance) := [(1, nsInstC1), (2, spInstC1)]

/-- Counterexample to C1: with one non-spatial instance (whose fill writes 1
into every world-block sample) and one spatial instance (whose binaural
output is 5 everywhere), the mixed block is `[5, 5, 5, 5]` — the spatial
output alone — not the sum `1 + 5` the claim requires, and the previously
written non-spatial sample at frame 0 (value 1) has been overwritten. -/
theorem c1_counterexample :
    (mixNonSpatialPass entriesC1 (List.replicate 4 0) 2).2.1 = [1, 1, 1, 1]
    ∧ (mixPlaybackInstances (List.replicate 4 0) 2 entriesC1
        (some procC1)).buffer = [5, 5, 5, 5]
    ∧ binauralOf (mixPlaybackInstances (List.replicate 4 0) 2 entriesC1
        (some procC1)).processor = [5, 5, 5, 5]
    ∧ (mixPlaybackInstances (List.replicate 4 0) 2 entriesC1
          (some procC1)).buffer.getD 0 0
        ≠ (mixNonSpatialPass entriesC1 (List.replicate 4 0) 2).2.1.getD 0 0
          + (binauralOf (mixPlaybackInstances (List.replicate 4 0) 2 entriesC1
              (some procC1)).processor).getD 0 0
    ∧ (mixPlaybackInstances (List.replicate 4 0) 2 entriesC1
          (some procC1)).buffer.getD 0 0
        ≠ (mixNonSpatialPass entriesC1 (List.replicate 4 0) 2).2.1.getD 0 0 := by
  decide

/-- C1 (amended): when at least one spatial instance is handed to an
available spatial processor and the block succeeds, the processor's
binaural stereo output REPLACES the shared world block on its first
`min(output.len() / 2, frame_size)` frames — each such sample equals the
binaural output alone, with the non-spatial content at those positions
overwritten — while every sample beyond that region keeps the content the
non-spatial passes wrote. -/
theorem c1_spatial_overwrite (proc : SpatialProcessor)
    (instances : List (ℕ × PlaybackInstance)) (outputBuffer : List Sample)
    (hne : instances ≠ [])
    (hok : (proc.processSpatialSources instances outputBuffer).err = none) :
    (proc.processSpatialSources instances outputBuffer).frames
        = min (outputBuffer.length / 2) proc.frameSize
    ∧ (∀ i, i < (proc.processSpatialSources instances outputBuffer).frames →
        (proc.processSpatialSources instances outputBuffer).output.getD (i * 2) 0
          = (proc.processSpatialSources instances
              outputBuffer).proc.cachedBinauralProcessed.getD (i * 2) 0
        ∧ (proc.processSpatialSources instances outputBuffer).output.getD
              (i * 2 + 1) 0
          = (proc.processSpatialSources instances
              outputBuffer).proc.cachedBinauralProcessed.getD (i * 2 + 1) 0)
    ∧ (∀ j, 2 * (proc.processSpatialSources instances outputBuffer).frames ≤ j →
        (proc.processSpatialSources instances outputBuffer).output.getD j 0
          = outputBuffer.getD j 0)
    ∧ (proc.processSpatialSources instances outputBuffer).output.length
        = outputBuffer.length := by
  cases instances with
  | nil => exact absurd rfl hne
  | cons e rest =>
    simp only [SpatialProcessor.processSpatialSources, List.isEmpty_cons,
      Bool.false_eq_true, if_false] at hok ⊢
    rcases hpl : SpatialProcessor.processList
        { proc with
          cachedSummedEncodedBuf :=
            List.replicate proc.cachedSummedEncodedBuf.length 0
          cachedBinauralProcessed :=
            List.replicate proc.cachedBinauralProcessed.length 0 }
        (e :: rest) with ⟨p1, i1, err⟩
    simp only [hpl] at hok ⊢
    cases err with
    | some e' => simp at hok
    | none =>
      rcases hdec : p1.dsp.decodeInterleave p1.cachedSummedEncodedBuf
        with _ | binaural
      · simp only [hdec] at hok ⊢
        simp at hok
      · simp only [hdec] at hok ⊢
        have hfs : p1.frameSize = proc.frameSize := by
          have h2 := SpatialProcessor.processList_frameSize (e :: rest)
            { proc with
              cachedSummedEncodedBuf :=
                List.replicate proc.cachedSummedEncodedBuf.length 0
              cachedBinauralProcessed :=
                List.replicate proc.cachedBinauralProcessed.length 0 }
          rw [hpl] at h2
          exact h2
        rw [hfs]
        refine ⟨rfl, fun i hi => ?_, fun j hj => ?_, ?_⟩
        · exact SpatialProcessor.copy_getD_lt outputBuffer binaural
            (min (outputBuffer.length / 2) proc.frameSize) i hi (by omega)
        · exact SpatialProcessor.copy_getD_ge outputBuffer binaural _ j hj
        · exact SpatialProcessor.copy_length outputBuffer binaural _

/-- Witness for C1's amended theorem: the spatial fixture processes the full
`min(4 / 2, 2) = 2` frames of the block. -/
theorem c1_witness :
    (procC1.processSpatialSources [(2, spInstC1)] (List.replicate 4 0)).frames
      = min ((List.replicate 4 (0 : Sample)).length / 2) procC1.frameSize :=
  (c1_spatial_overwrite procC1 [(2, spInstC1)] (List.replicate 4 0)
    (by decide) (by decide)).1

/-!
## C5 — a per-source DSP failure aborts the whole spatial block

The per-source loop of `process_spatial_sources` (processor.rs:222-224)
propagates each source's error with `?`, so the first failing source makes
the whole call return `Err`; the other sources are not decoded, and the
mixer logs the error (mixer.rs:99-102) and keeps the world block as the
non-spatial passes left it.
-/

/-- DSP oracle that fails to create effects for source 2 only. -/
def dspC5 : SpatialDsp :=
  { dspC1 with createEffects := fun id => if id = 2 then none else some () }

/-- Spatial processor fixture whose DSP rejects source 2. -/
def procC5 : SpatialProcessor := { procC1 with dsp := dspC5 }

/-- Spatial instance with id 1 (processed successfully before source 2
fails). -/
def spInstC5 : PlaybackInstance :=
  { nsInstC1 with audioId := 1, config := .spatial ⟨1, 0, 0⟩ 1 }

/-- The two-source spatial list whose second source fails. -/
def instancesC5 : List (ℕ × PlaybackInstance) := [(1, spInstC5), (2, spInstC1)]

/-- Counterexample to C5: with source 1 processing cleanly and source 2's
effect creation failing, `process_spatial_sources` does NOT return
successfully — it returns a SpatialAudio error, processes 0 frames and
leaves the output buffer untouched; the surviving source's contribution is
not summed into the block. -/
theorem c5_counterexample :
    (procC5.processSpatialSources instancesC5 (List.replicate 4 0)).err
        = some PetalSonicErrorKind.spatialAudio
    ∧ (procC5.processSpatialSources instancesC5 (List.replicate 4 0)).output
        = List.replicate 4 0
    ∧ (procC5.processSpatialSources instancesC5 (List.replicate 4 0)).frames
        = 0 := by
  decide

theorem processSpatialSources_err_state (proc : SpatialProcessor)
    (instances : List (ℕ × PlaybackInstance)) (outputBuffer : List Sample)
    (e : PetalSonicErrorKind)
    (h : (proc.processSpatialSources instances outputBuffer).err = some e) :
    (proc.processSpatialSources instances outputBuffer).output = outputBuffer
    ∧ (proc.processSpatialSources instances outputBuffer).frames = 0 := by
  cases instances with
  | nil =>
    simp [SpatialProcessor.processSpatialSources] at h
  | cons en rest =>
    simp only [SpatialProcessor.processSpatialSources, List.isEmpty_cons,
      Bool.false_eq_true, if_false] at h ⊢
    rcases hpl : SpatialProcessor.processList
        { proc with
          cachedSummedEncodedBuf :=
            List.replicate proc.cachedSummedEncodedBuf.length 0
          cachedBinauralProcessed :=
            List.replicate proc.cachedBinauralProcessed.length 0 }
        (en :: rest) with ⟨p1, i1, err⟩
    simp only [hpl] at h ⊢
    cases err with
    | some e' => exact ⟨by trivial, by trivial⟩
    | none =>
      rcases hdec : p1.dsp.decodeInterleave p1.cachedSummedEncodedBuf
        with _ | binaural
      · simp only [hdec] at h ⊢
        exact ⟨by trivial, by trivial⟩
      · simp only [hdec] at h
        cases h

/-- C5 (amended): a DSP failure on one spatial source aborts the entire
spatial block.  (a) If the first source of the per-source loop fails, the
whole loop reports that error.  (b) Whenever `process_spatial_sources`
returns an error, it has processed 0 frames and left the shared world
block exactly as the non-spatial passes wrote it.  (c) The mixer then logs
and continues: the block's buffer keeps only the non-spatial content and
the spatial pass contributes no frames. -/
theorem c5_single_failure_aborts_block :
    (∀ (proc : SpatialProcessor) (id : ℕ) (inst : PlaybackInstance)
      (rest : List (ℕ × PlaybackInstance)) (e : PetalSonicErrorKind),
      (proc.processSingleSource id inst).2.2 = some e →
      (proc.processList ((id, inst) :: rest)).2.2 = some e)
    ∧ (∀ (proc : SpatialProcessor) (instances : List (ℕ × PlaybackInstance))
        (outputBuffer : List Sample) (e : PetalSonicErrorKind),
        (proc.processSpatialSources instances outputBuffer).err = some e →
        (proc.processSpatialSources instances outputBuffer).output = outputBuffer
        ∧ (proc.processSpatialSources instances outputBuffer).frames = 0)
    ∧ (∀ (entries : List (ℕ × PlaybackInstance)) (buffer : List Sample)
        (proc : SpatialProcessor) (e : PetalSonicErrorKind),
        (proc.processSpatialSources
          (entries.filter (fun en => en.2.isPlaying && en.2.config.isSpatial))
          buffer).err = some e →
        (mixSpatialPass entries buffer (some proc)).2.1 = buffer
        ∧ (mixSpatialPass entries buffer (some proc)).2.2.1 = 0) := by
  refine ⟨?_, ?_, ?_⟩
  · intro proc id inst rest e h
    rcases hs : proc.processSingleSource id inst with ⟨p2, i2, err2⟩
    rw [hs] at h
    cases err2 with
    | some e' =>
      cases h
      simp [SpatialProcessor.processList, hs]
    | none => cases h
  · exact fun proc instances outputBuffer e h =>
      processSpatialSources_err_state proc instances outputBuffer e h
  · intro entries buffer proc e h
    have hout := processSpatialSources_err_state proc
      (entries.filter (fun en => en.2.isPlaying && en.2.config.isSpatial))
      buffer e h
    have hne : (entries.filter
        (fun en => en.2.isPlaying && en.2.config.isSpatial)) ≠ [] := by
      intro hempty
      rw [hempty] at h
      simp [SpatialProcessor.processSpatialSources] at h
    have hie : (entries.filter
        (fun en => en.2.isPlaying && en.2.config.isSpatial)).isEmpty = false := by
      cases hl : entries.filter (fun en => en.2.isPlaying && en.2.config.isSpatial)
      · exact absurd hl hne
      · rfl
    unfold mixSpatialPass
    simp only [hie, Bool.false_eq_true, if_false, h]
    exact ⟨hout.1, by trivial⟩

/-- Witness for C5's amended theorem, applied to the failing fixture. -/
theorem c5_witness :
    (procC5.processSpatialSources instancesC5 (List.replicate 4 0)).output
        = List.replicate 4 0
    ∧ (procC5.processSpatialSources instancesC5 (List.replicate 4 0)).frames
        = 0 :=
  c5_single_failure_aborts_block.2.1 procC5 instancesC5 (List.replicate 4 0)
    PetalSonicErrorKind.spatialAudio (by decide)

/-!
## C7 — the cursor invariant 0 ≤ cursor ≤ total_frames
-/

theorem advance_totalFrames (inst : PlaybackInstance) (k : ℕ) :
    (inst.advanceAndCheckCompletion k).info.totalFrames = inst.info.totalFrames := by
  simp only [PlaybackInstance.advanceAndCheckCompletion, PlaybackInfo.updatePosition]
  split <;> rfl

theorem advance_inv (inst : PlaybackInstance) (k : ℕ) :
    (inst.advanceAndCheckCompletion k).info.currentFrame
      ≤ (inst.advanceAndCheckCompletion k).info.totalFrames := by
  rw [advance_currentFrame, advance_totalFrames]
  omega

theorem fillBuffer_inv (inst : PlaybackInstance) (buffer : List Sample)
    (channels : ℕ) (h : inst.info.currentFrame ≤ inst.info.totalFrames) :
    (inst.fillBuffer buffer channels).1.info.currentFrame
      ≤ (inst.fillBuffer buffer channels).1.info.totalFrames := by
  unfold PlaybackInstance.fillBuffer
  cases hps : inst.info.playState
  · dsimp only
    rcases hf : PlaybackInstance.fillLoop inst.audioData.samples
      inst.info.currentFrame channels buffer 0 (buffer.length / channels) 0
      with ⟨b2, ff⟩
    dsimp only
    split
    · exact advance_inv inst ff
    · exact h
  · exact h
  · exact h

theorem processSingleSource_inv (proc : SpatialProcessor) (id : ℕ)
    (inst : PlaybackInstance)
    (h : inst.info.currentFrame ≤ inst.info.totalFrames) :
    (proc.processSingleSource id inst).2.1.info.currentFrame
      ≤ (proc.processSingleSource id inst).2.1.info.totalFrames := by
  unfold SpatialProcessor.processSingleSource
  split
  · exact h
  · split
    · dsimp only
      split
      · exact advance_inv _ _
      · split
        · exact advance_inv _ _
        · exact advance_inv _ _
    · split
      · dsimp only
        split
        · exact advance_inv _ _
        · split
          · exact advance_inv _ _
          · exact advance_inv _ _
      · exact h

theorem processList_inv (l : List (ℕ × PlaybackInstance))
    (proc : SpatialProcessor)
    (h : ∀ e ∈ l, e.2.info.currentFrame ≤ e.2.info.totalFrames) :
    ∀ e ∈ (proc.processList l).2.1,
      e.2.info.currentFrame ≤ e.2.info.totalFrames := by
  induction l generalizing proc with
  | nil => intro e he; cases he
  | cons en rest ih =>
    obtain ⟨id, inst⟩ := en
    have hinst := h (id, inst) (List.mem_cons_self _ _)
    have hssi := processSingleSource_inv proc id inst hinst
    rcases hs : proc.processSingleSource id inst with ⟨p2, i2, err2⟩
    rw [hs] at hssi
    cases err2 with
    | some e' =>
      intro e he
      simp only [SpatialProcessor.processList, hs] at he
      rcases List.mem_cons.mp he with rfl | hr
      · exact hssi
      · exact h e (List.mem_cons_of_mem _ hr)
    | none =>
      intro e he
      rcases hr : p2.processList rest with ⟨p3, i3, err3⟩
      simp only [SpatialProcessor.processList, hs, hr] at he
      rcases List.mem_cons.mp he with rfl | hrr
      · exact hssi
      · have := ih p2 (fun x hx => h x (List.mem_cons_of_mem _ hx))
        rw [hr] at this
        exact this e hrr

theorem mixNonSpatialPass_inv (l : List (ℕ × PlaybackInstance))
    (buffer : List Sample) (channels : ℕ)
    (h : ∀ e ∈ l, e.2.info.currentFrame ≤ e.2.info.totalFrames) :
    ∀ e ∈ (mixNonSpatialPass l buffer channels).1,
      e.2.info.currentFrame ≤ e.2.info.totalFrames := by
  induction l generalizing buffer with
  | nil => intro e he; cases he
  | cons en rest ih =>
    obtain ⟨id, inst⟩ := en
    have hinst := h (id, inst) (List.mem_cons_self _ _)
    intro e he
    by_cases hc : inst.isPlaying && !inst.config.isSpatial
    · rcases hfb : inst.fillBuffer buffer channels with ⟨i2, b2, ff⟩
      have hfi := fillBuffer_inv inst buffer channels hinst
      rw [hfb] at hfi
      rcases hmn : mixNonSpatialPass rest b2 channels with ⟨r2, b3, fm⟩
      simp only [mixNonSpatialPass, hc, hfb, hmn, if_true] at he
      rcases List.mem_cons.mp he with rfl | hr
      · exact hfi
      · have := ih b2 (fun x hx => h x (List.mem_cons_of_mem _ hx))
        rw [hmn] at this
        exact this e hr
    · rcases hmn : mixNonSpatialPass rest buffer channels with ⟨r2, b3, fm⟩
      simp only [mixNonSpatialPass, hc, hmn, if_false] at he
      rcases List.mem_cons.mp he with rfl | hr
      · exact hinst
      · have := ih buffer (fun x hx => h x (List.mem_cons_of_mem _ hx))
        rw [hmn] at this
        exact this e hr

theorem mem_of_lookup_eq_some (l : List (ℕ × PlaybackInstance)) (k : ℕ)
    (v : PlaybackInstance) (h : l.lookup k = some v) :
    ∃ k', (k', v) ∈ l := by
  induction l with
  | nil => cases h
  | cons e rest ih =>
    obtain ⟨k2, v2⟩ := e
    by_cases hk : k2 = k
    · subst hk
      simp [List.lookup_cons] at h
      exact ⟨k2, by simp [h]⟩
    · have hb : (k == k2) = false := by simp [Ne.symm hk]
      simp only [List.lookup_cons, hb] at h
      obtain ⟨k', hk'⟩ := ih h
      exact ⟨k', List.mem_cons_of_mem _ hk'⟩

theorem mergeById_inv (entries updated : List (ℕ × PlaybackInstance))
    (h : ∀ e ∈ entries, e.2.info.currentFrame ≤ e.2.info.totalFrames)
    (hu : ∀ e ∈ updated, e.2.info.currentFrame ≤ e.2.info.totalFrames) :
    ∀ e ∈ mergeById entries updated,
      e.2.info.currentFrame ≤ e.2.info.totalFrames := by
  intro e he
  unfold mergeById at he
  rcases List.mem_map.mp he with ⟨x, hx, hxe⟩
  rcases hl : updated.lookup x.1 with _ | v
  · rw [hl] at hxe
    subst hxe
    exact h x hx
  · rw [hl] at hxe
    obtain ⟨k', hk'⟩ := mem_of_lookup_eq_some updated x.1 v hl
    subst hxe
    exact hu (k', v) hk'

theorem processSpatialSources_inv (proc : SpatialProcessor)
    (instances : List (ℕ × PlaybackInstance)) (outputBuffer : List Sample)
    (h : ∀ e ∈ instances, e.2.info.currentFrame ≤ e.2.info.totalFrames) :
    ∀ e ∈ (proc.processSpatialSources instances outputBuffer).instances,
      e.2.info.currentFrame ≤ e.2.info.totalFrames := by
  cases instances with
  | nil => intro e he; cases he
  | cons en rest =>
    intro e he
    simp only [SpatialProcessor.processSpatialSources, List.isEmpty_cons,
      Bool.false_eq_true, if_false] at he
    have hpli := processList_inv (en :: rest)
      { proc with
        cachedSummedEncodedBuf :=
          List.replicate proc.cachedSummedEncodedBuf.length 0
        cachedBinauralProcessed :=
          List.replicate proc.cachedBinauralProcessed.length 0 } h
    rcases hpl : SpatialProcessor.processList
        { proc with
          cachedSummedEncodedBuf :=
            List.replicate proc.cachedSummedEncodedBuf.length 0
          cachedBinauralProcessed :=
            List.replicate proc.cachedBinauralProcessed.length 0 }
        (en :: rest) with ⟨p1, i1, err⟩
    rw [hpl] at hpli
    simp only [hpl] at he
    cases err with
    | some e' => exact hpli e he
    | none =>
      rcases hdec : p1.dsp.decodeInterleave p1.cachedSummedEncodedBuf
        with _ | binaural
      · simp only [hdec] at he
        exact hpli e he
      · simp only [hdec] at he
        exact hpli e he

theorem mixSpatialPass_inv (entries : List (ℕ × PlaybackInstance))
    (buffer : List Sample) (processor : Option SpatialProcessor)
    (h : ∀ e ∈ entries, e.2.info.currentFrame ≤ e.2.info.totalFrames) :
    ∀ e ∈ (mixSpatialPass entries buffer processor).1,
      e.2.info.currentFrame ≤ e.2.info.totalFrames := by
  unfold mixSpatialPass
  cases processor with
  | none => exact h
  | some proc =>
    dsimp only
    split
    · exact h
    · have hfsub : ∀ e ∈ entries.filter
          (fun e => e.2.isPlaying && e.2.config.isSpatial),
          e.2.info.currentFrame ≤ e.2.info.totalFrames :=
        fun e he => h e (List.mem_of_mem_filter he)
      have hpsi := processSpatialSources_inv proc
        (entries.filter (fun e => e.2.isPlaying && e.2.config.isSpatial))
        buffer hfsub
      split
      · exact mergeById_inv entries _ h hpsi
      · exact mergeById_inv entries _ h hpsi

theorem mixEventStage_inv (l : List (ℕ × PlaybackInstance))
    (h : ∀ e ∈ l, e.2.info.currentFrame ≤ e.2.info.totalFrames) :
    ∀ e ∈ (mixEventStage l).1,
      e.2.info.currentFrame ≤ e.2.info.totalFrames := by
  induction l with
  | nil => intro e he; cases he
  | cons en rest ih =>
    obtain ⟨id, inst⟩ := en
    have hinst := h (id, inst) (List.mem_cons_self _ _)
    have hrest := ih (fun x hx => h x (List.mem_cons_of_mem _ hx))
    intro e he
    rcases hms : mixEventStage rest with ⟨r2, comp, looped⟩
    rw [hms] at hrest
    rcases hcf : inst.checkAndClearEndFlag with ⟨flag, inst2⟩
    have hinst2 : inst2.info.currentFrame ≤ inst2.info.totalFrames := by
      unfold PlaybackInstance.checkAndClearEndFlag at hcf
      split at hcf <;> cases hcf <;> exact hinst
    simp only [mixEventStage, hcf, hms] at he
    cases flag with
    | none =>
      rcases List.mem_cons.mp he with rfl | hr
      · exact hinst2
      · exact hrest e hr
    | some m =>
      cases m with
      | once =>
        rcases List.mem_cons.mp he with rfl | hr
        · exact hinst2
        · exact hrest e hr
      | infinite =>
        rcases List.mem_cons.mp he with rfl | hr
        · simp [PlaybackInstance.playFromBeginning, PlaybackInstance.reset,
            PlaybackInstance.resume]
        · exact hrest e hr

theorem mixPlaybackInstances_inv (buffer : List Sample) (channels : ℕ)
    (entries : List (ℕ × PlaybackInstance))
    (processor : Option SpatialProcessor)
    (h : ∀ e ∈ entries, e.2.info.currentFrame ≤ e.2.info.totalFrames) :
    ∀ e ∈ (mixPlaybackInstances buffer channels entries processor).entries,
      e.2.info.currentFrame ≤ e.2.info.totalFrames := by
  intro e he
  unfold mixPlaybackInstances mixFillStage at he
  rcases hns : mixNonSpatialPass entries buffer channels with ⟨e1, b1, f1⟩
  have h1 := mixNonSpatialPass_inv entries buffer channels h
  rw [hns] at h1
  rcases hsp : mixSpatialPass e1 b1 processor with ⟨e2, b2, f2, p2⟩
  have h2 := mixSpatialPass_inv e1 b1 processor h1
  rw [hsp] at h2
  rcases hev : mixEventStage e2 with ⟨e3, comp, looped⟩
  have h3 := mixEventStage_inv e2 h2
  rw [hev] at h3
  simp only [hns, hsp, hev] at he
  exact h3 e (List.mem_of_mem_filter he)

theorem mem_upsert (entries : List (ℕ × PlaybackInstance)) (id : ℕ)
    (inst : PlaybackInstance) (e : ℕ × PlaybackInstance)
    (he : e ∈ upsert entries id inst) :
    e.2 = inst ∨ e ∈ entries := by
  unfold upsert at he
  split at he
  · rcases List.mem_map.mp he with ⟨x, hx, hxe⟩
    by_cases hxi : x.1 = id
    · rw [if_pos hxi] at hxe
      subst hxe
      exact Or.inl rfl
    · rw [if_neg hxi] at hxe
      subst hxe
      exact Or.inr hx
  · rcases List.mem_append.mp he with hl | hr
    · exact Or.inr hl
    · rcases List.mem_cons.mp hr with rfl | hc
      · exact Or.inl rfl
      · cases hc

theorem applyPlaybackCommand_inv (storage : List (ℕ × AudioData))
    (entries : List (ℕ × PlaybackInstance)) (cmd : PlaybackCommand)
    (h : ∀ e ∈ entries, e.2.info.currentFrame ≤ e.2.info.totalFrames) :
    ∀ e ∈ applyPlaybackCommand storage entries cmd,
      e.2.info.currentFrame ≤ e.2.info.totalFrames := by
  intro e he
  cases cmd with
  | play id config loopMode =>
    simp only [applyPlaybackCommand] at he
    rcases hl : storage.lookup id with _ | audioData
    · rw [hl] at he
      exact h e he
    · rw [hl] at he
      rcases mem_upsert _ _ _ _ he with heq | hmem
      · rw [heq]
        simp [PlaybackInstance.playFromBeginning, PlaybackInstance.reset,
          PlaybackInstance.resume]
      · exact h e hmem
  | pause id =>
    simp only [applyPlaybackCommand] at he
    rcases List.mem_map.mp he with ⟨x, hx, hxe⟩
    by_cases hxi : x.1 = id
    · rw [if_pos hxi] at hxe
      subst hxe
      exact h x hx
    · rw [if_neg hxi] at hxe
      subst hxe
      exact h x hx
  | stop id =>
    simp only [applyPlaybackCommand] at he
    exact h e (List.mem_of_mem_filter he)
  | updateConfig id config =>
    simp only [applyPlaybackCommand] at he
    rcases List.mem_map.mp he with ⟨x, hx, hxe⟩
    by_cases hxi : x.1 = id
    · rw [if_pos hxi] at hxe
      subst hxe
      exact h x hx
    · rw [if_neg hxi] at hxe
      subst hxe
      exact h x hx
  | stopAll =>
    simp only [applyPlaybackCommand] at he
    cases he

theorem processPlaybackCommands_inv (storage : List (ℕ × AudioData))
    (cmds : List PlaybackCommand) (entries : List (ℕ × PlaybackInstance))
    (h : ∀ e ∈ entries, e.2.info.currentFrame ≤ e.2.info.totalFrames) :
    ∀ e ∈ processPlaybackCommands storage entries cmds,
      e.2.info.currentFrame ≤ e.2.info.totalFrames := by
  induction cmds generalizing entries with
  | nil => exact h
  | cons cmd rest ih =>
    exact ih (applyPlaybackCommand storage entries cmd)
      (applyPlaybackCommand_inv storage entries cmd h)

/-- C7: every modelled operation preserves the playback-instance invariant
`0 ≤ current_frame ≤ total_frames` (the lower bound is inherent to ℕ):
`advance_and_check_completion` establishes it outright for any consumed
count — including the spatial path's unconditional full-`frame_size`
advance, whose clamp in `update_position` keeps the cursor from ever
exceeding the total — and `fill_buffer`, the spatial per-source
processing, a whole mixer render block, and command processing all
preserve it for every instance they leave behind. -/
theorem c7_cursor_invariant :
    (∀ (inst : PlaybackInstance) (k : ℕ),
      (inst.advanceAndCheckCompletion k).info.currentFrame
        ≤ (inst.advanceAndCheckCompletion k).info.totalFrames)
    ∧ (∀ (inst : PlaybackInstance) (buffer : List Sample) (channels : ℕ),
        inst.info.currentFrame ≤ inst.info.totalFrames →
        (inst.fillBuffer buffer channels).1.info.currentFrame
          ≤ (inst.fillBuffer buffer channels).1.info.totalFrames)
    ∧ (∀ (proc : SpatialProcessor) (id : ℕ) (inst : PlaybackInstance),
        inst.info.currentFrame ≤ inst.info.totalFrames →
        (proc.processSingleSource id inst).2.1.info.currentFrame
          ≤ (proc.processSingleSource id inst).2.1.info.totalFrames)
    ∧ (∀ (buffer : List Sample) (channels : ℕ)
        (entries : List (ℕ × PlaybackInstance))
        (processor : Option SpatialProcessor),
        (∀ e ∈ entries, e.2.info.currentFrame ≤ e.2.info.totalFrames) →
        ∀ e ∈ (mixPlaybackInstances buffer channels entries processor).entries,
          e.2.info.currentFrame ≤ e.2.info.totalFrames)
    ∧ (∀ (storage : List (ℕ × AudioData)) (cmds : List PlaybackCommand)
        (entries : List (ℕ × PlaybackInstance)),
        (∀ e ∈ entries, e.2.info.currentFrame ≤ e.2.info.totalFrames) →
        ∀ e ∈ processPlaybackCommands storage entries cmds,
          e.2.info.currentFrame ≤ e.2.info.totalFrames) :=
  ⟨advance_inv, fillBuffer_inv, processSingleSource_inv,
    mixPlaybackInstances_inv, processPlaybackCommands_inv⟩

/-- Witness for C7: the invariant after a concrete `fill_buffer` run. -/
theorem c7_witness :
    (instPlaying5.fillBuffer (List.replicate 4 0) 2).1.info.currentFrame
      ≤ (instPlaying5.fillBuffer (List.replicate 4 0) 2).1.info.totalFrames :=
  c7_cursor_invariant.2.1 instPlaying5 (List.replicate 4 0) 2 (by decide)

/-!
## C8 — streaming resampler: consumed accounting and zero-fill
-/

namespace StreamingResampler

theorem framesExactFuel_length (channels : ℕ) (hch : 0 < channels) :
    ∀ (fuel : ℕ) (input : List Sample), input.length ≤ fuel →
    (framesExactFuel channels fuel input).length = input.length / channels := by
  intro fuel
  induction fuel with
  | zero =>
    intro input hf
    have : input.length = 0 := Nat.le_zero.mp hf
    simp [framesExactFuel, this]
  | succ fuel ih =>
    intro input hf
    by_cases hc : channels ≤ input.length
    · have hrec := ih (input.drop channels)
        (by rw [List.length_drop]; omega)
      rw [framesExactFuel, if_pos ⟨hch, hc⟩]
      simp only [List.length_cons, hrec, List.length_drop]
      rw [Nat.div_eq_sub_div hch hc]
    · have hno : ¬(0 < channels ∧ channels ≤ input.length) := by omega
      rw [framesExactFuel, if_neg hno]
      simp [Nat.div_eq_of_lt (show input.length < channels by omega)]

theorem framesExactFuel_mem_length (channels : ℕ) :
    ∀ (fuel : ℕ) (input : List Sample) (f : List Sample),
    f ∈ framesExactFuel channels fuel input → f.length = channels := by
  intro fuel
  induction fuel with
  | zero => intro input f hf; cases hf
  | succ fuel ih =>
    intro input f hf
    rw [framesExactFuel] at hf
    split at hf
    · rename_i hcond
      rcases List.mem_cons.mp hf with rfl | hr
      · simp [List.length_take]
        omega
      · exact ih _ f hr
    · cases hf

theorem pushFrame_length (bufs : List (List Sample)) (frame : List Sample) :
    (pushFrame bufs frame).length = bufs.length := by
  simp [pushFrame]

theorem pushFrame_head (bufs : List (List Sample)) (frame : List Sample)
    (hb : 0 < bufs.length) (hf : 0 < frame.length) :
    ((pushFrame bufs frame).headD []).length = (bufs.headD []).length + 1 := by
  cases bufs with
  | nil => simp at hb
  | cons b rest =>
    simp [pushFrame, List.mapIdx_cons, hf]

theorem foldl_pushFrame_spec (frames : List (List Sample)) :
    ∀ (bufs : List (List Sample)), 0 < bufs.length →
    (∀ f ∈ frames, 0 < f.length) →
    ((frames.foldl pushFrame bufs).headD []).length
        = (bufs.headD []).length + frames.length
    ∧ (frames.foldl pushFrame bufs).length = bufs.length := by
  induction frames with
  | nil => intro bufs hb _; simp
  | cons f rest ih =>
    intro bufs hb hall
    have hf : 0 < f.length := hall f (List.mem_cons_self _ _)
    have hb2 : 0 < (pushFrame bufs f).length := by rw [pushFrame_length]; exact hb
    have hrec := ih (pushFrame bufs f) hb2
      (fun x hx => hall x (List.mem_cons_of_mem _ hx))
    simp only [List.foldl_cons]
    refine ⟨?_, ?_⟩
    · rw [hrec.1, pushFrame_head bufs f hb hf, List.length_cons]
      omega
    · rw [hrec.2, pushFrame_length]


theorem foldl_length_preserved {α : Type} (F : List Sample → α → List Sample)
    (hF : ∀ o a, (F o a).length = o.length) :
    ∀ (l : List α) (out : List Sample), (l.foldl F out).length = out.length := by
  intro l
  induction l with
  | nil => intro out; rfl
  | cons a rest ih => intro out; rw [List.foldl_cons, ih, hF]

theorem copyChunk_length (outputWaves : List (List Sample))
    (channels outFramesWritten framesToCopy : ℕ) (output : List Sample) :
    ((List.range framesToCopy).foldl
      (fun out f =>
        (List.range channels).foldl
          (fun out ch =>
            out.set ((outFramesWritten + f) * channels + ch)
              ((outputWaves.getD ch []).getD f 0))
          out)
      output).length = output.length := by
  apply foldl_length_preserved
  intro o a
  apply foldl_length_preserved
  intro o2 a2
  exact List.length_set o2 _ _

theorem headD_map_drop (bufs : List (List Sample)) (n : ℕ)
    (hb : 0 < bufs.length) :
    ((bufs.map (fun b => b.drop n)).headD []) = (bufs.headD []).drop n := by
  cases bufs with
  | nil => simp at hb
  | cons b rest => rfl

theorem produceLoop_spec (cap : ℕ) :
    ∀ (fuel : ℕ) (r : StreamingResampler) (output : List Sample)
      (written consumed : ℕ),
      0 < r.inputBuffer.length →
      (∀ k waves, 0 < ((r.oracle.produce k waves).headD []).length) →
      written ≤ cap →
      (produceLoop cap fuel r output written consumed).out.length = output.length
      ∧ (produceLoop cap fuel r output written consumed).written ≤ cap
      ∧ ((produceLoop cap fuel r output written
            consumed).st.inputBuffer.headD []).length
          + (produceLoop cap fuel r output written consumed).consumed
        = (r.inputBuffer.headD []).length + consumed := by
  intro fuel
  induction fuel with
  | zero =>
    intro r output written consumed _ _ hw
    exact ⟨rfl, hw, rfl⟩
  | succ fuel ih =>
    intro r output written consumed hb hp hw
    by_cases hwc : written < cap
    · rw [produceLoop, if_pos hwc]
      by_cases hg : (r.inputBuffer.headD []).length
          < r.oracle.framesNeeded r.callCount
      · have hc : tryProduceResampledChunk r output written cap
            = ⟨output, 0, 0, r⟩ := by
          rw [tryProduceResampledChunk, if_pos hg]
        simp only [hc]
        exact ⟨rfl, hw, rfl⟩
      · have hprodpos : 0 < ((r.oracle.produce r.callCount
            (r.inputBuffer.map (fun b => b.take
              (r.oracle.framesNeeded r.callCount)))).headD []).length := hp _ _
        have hc : tryProduceResampledChunk r output written cap
            = { out := (List.range (min ((r.oracle.produce r.callCount
                    (r.inputBuffer.map (fun b => b.take
                      (r.oracle.framesNeeded r.callCount)))).headD []).length
                    (cap - written))).foldl
                  (fun out f =>
                    (List.range r.channels).foldl
                      (fun out ch =>
                        out.set ((written + f) * r.channels + ch)
                          (((r.oracle.produce r.callCount
                            (r.inputBuffer.map (fun b => b.take
                              (r.oracle.framesNeeded r.callCount)))).getD ch
                              []).getD f 0))
                      out)
                  output
                outFrames := min ((r.oracle.produce r.callCount
                    (r.inputBuffer.map (fun b => b.take
                      (r.oracle.framesNeeded r.callCount)))).headD []).length
                    (cap - written)
                inFrames := r.oracle.framesNeeded r.callCount
                st := { r with
                  inputBuffer := r.inputBuffer.map (fun b => b.drop
                    (r.oracle.framesNeeded r.callCount))
                  callCount := r.callCount + 1 } } := by
          rw [tryProduceResampledChunk, if_neg hg]
        simp only [hc]
        have hofpos : 0 < min ((r.oracle.produce r.callCount
            (r.inputBuffer.map (fun b => b.take
              (r.oracle.framesNeeded r.callCount)))).headD []).length
            (cap - written) := by
          omega
        rw [if_neg (by omega)]
        have hrec := ih
          { r with
            inputBuffer := r.inputBuffer.map (fun b => b.drop
              (r.oracle.framesNeeded r.callCount))
            callCount := r.callCount + 1 }
          ((List.range (min ((r.oracle.produce r.callCount
              (r.inputBuffer.map (fun b => b.take
                (r.oracle.framesNeeded r.callCount)))).headD []).length
              (cap - written))).foldl
            (fun out f =>
              (List.range r.channels).foldl
                (fun out ch =>
                  out.set ((written + f) * r.channels + ch)
                    (((r.oracle.produce r.callCount
                      (r.inputBuffer.map (fun b => b.take
                        (r.oracle.framesNeeded r.callCount)))).getD ch
                        []).getD f 0))
                out)
            output)
          (written + min ((r.oracle.produce r.callCount
              (r.inputBuffer.map (fun b => b.take
                (r.oracle.framesNeeded r.callCount)))).headD []).length
              (cap - written))
          (consumed + r.oracle.framesNeeded r.callCount)
          (by simpa using hb) hp (by omega)
        refine ⟨?_, hrec.2.1, ?_⟩
        · rw [hrec.1, copyChunk_length]
        · rw [hrec.2.2]
          have hhd : (({ r with
              inputBuffer := r.inputBuffer.map (fun b => b.drop
                (r.oracle.framesNeeded r.callCount))
              callCount := r.callCount + 1 }
                : StreamingResampler).inputBuffer.headD []).length
              = (r.inputBuffer.headD []).length
                - r.oracle.framesNeeded r.callCount := by
            rw [show ({ r with
              inputBuffer := r.inputBuffer.map (fun b => b.drop
                (r.oracle.framesNeeded r.callCount))
              callCount := r.callCount + 1 }
                : StreamingResampler).inputBuffer
              = r.inputBuffer.map (fun b => b.drop
                  (r.oracle.framesNeeded r.callCount)) from rfl]
            rw [headD_map_drop r.inputBuffer _ hb, List.length_drop]
          rw [hhd]
          omega
    · rw [produceLoop, if_neg hwc]
      exact ⟨rfl, hw, rfl⟩


theorem getD_replicate_zero (n j : ℕ) :
    (List.replicate n (0 : Sample)).getD j 0 = 0 := by
  rcases Nat.lt_or_ge j n with h | h
  · simp [List.getD_eq_getElem?_getD, List.getElem?_replicate, h]
  · have hn : (List.replicate n (0 : Sample))[j]? = none := by
      rw [List.getElem?_eq_none]
      simpa using h
    simp [List.getD_eq_getElem?_getD, hn]

theorem deinterleave_spec (r : StreamingResampler) (input : List Sample)
    (hch : 0 < r.channels) (hb : 0 < r.inputBuffer.length) :
    ((r.deinterleaveAndBufferInput input).inputBuffer.headD []).length
        = (r.inputBuffer.headD []).length + input.length / r.channels
    ∧ 0 < (r.deinterleaveAndBufferInput input).inputBuffer.length := by
  have hmem : ∀ f ∈ framesExact r.channels input, 0 < f.length := by
    intro f hf
    rw [framesExactFuel_mem_length r.channels input.length input f hf]
    exact hch
  have hcount : (framesExact r.channels input).length
      = input.length / r.channels :=
    framesExactFuel_length r.channels hch input.length input le_rfl
  have hspec := foldl_pushFrame_spec (framesExact r.channels input)
    r.inputBuffer hb hmem
  unfold deinterleaveAndBufferInput
  exact ⟨by rw [hspec.1, hcount], by rw [hspec.2]; exact hb⟩

theorem zeroFill_length (channels : ℕ) (output : List Sample)
    (written : ℕ) :
    (zeroFillOutput channels output written).length = output.length := by
  unfold zeroFillOutput
  dsimp only
  split
  · simp only [List.length_append, List.length_take, List.length_replicate]
    omega
  · rfl

theorem zeroFill_getD_zero (channels : ℕ) (output : List Sample)
    (written : ℕ) (i : ℕ) (hlo : written * channels ≤ i)
    (hhi : i < output.length / channels * channels) :
    (zeroFillOutput channels output written).getD i 0 = 0 := by
  unfold zeroFillOutput
  dsimp only
  split
  · rename_i hwc
    have hsle : written * channels ≤ output.length := by
      have h1 : written * channels ≤ output.length / channels * channels :=
        Nat.mul_le_mul_right channels (by omega)
      have h2 : output.length / channels * channels ≤ output.length :=
        Nat.div_mul_le_self output.length channels
      omega
    have htl : (output.take (written * channels)).length = written * channels := by
      simp [hsle]
    rw [List.getD_append_right _ _ _ _ (by omega), htl, getD_replicate_zero]
  · rename_i hwc
    have : output.length / channels ≤ written := by omega
    have : output.length / channels * channels ≤ written * channels :=
      Nat.mul_le_mul_right channels this
    omega

/-- C8: for every `process_interleaved` call (against any well-formed
resampler state and any fixed-output DSP, i.e. one whose chunks are never
empty), the returned `frames_consumed` equals the number of input frames
actually drained from the internal accumulation buffer — the buffered
frame count satisfies `final + consumed = initial + incoming`, accurate
even when `frames_written` is truncated because the destination filled —
and every destination sample beyond `frames_written` frames (through the
last full frame of the destination) is zero when the call returns; the
destination's length is preserved and `frames_written` never exceeds its
frame capacity. -/
theorem c8_process_interleaved_contract (r : StreamingResampler)
    (inputSamples outputSamples : List Sample)
    (hch : 0 < r.channels) (hbuf : 0 < r.inputBuffer.length)
    (hprod : ∀ k waves, 0 < ((r.oracle.produce k waves).headD []).length) :
    (r.processInterleaved inputSamples outputSamples).out.length
        = outputSamples.length
    ∧ (r.processInterleaved inputSamples outputSamples).written
        ≤ outputSamples.length / r.channels
    ∧ (∀ i, (r.processInterleaved inputSamples outputSamples).written
          * r.channels ≤ i →
        i < outputSamples.length / r.channels * r.channels →
        (r.processInterleaved inputSamples outputSamples).out.getD i 0 = 0)
    ∧ ((r.processInterleaved inputSamples
          outputSamples).st.inputBuffer.headD []).length
        + (r.processInterleaved inputSamples outputSamples).consumed
      = (r.inputBuffer.headD []).length
        + inputSamples.length / r.channels := by
  have hd := deinterleave_spec r inputSamples hch hbuf
  have hl := produceLoop_spec (outputSamples.length / r.channels)
    (outputSamples.length / r.channels + 1)
    (r.deinterleaveAndBufferInput inputSamples) outputSamples 0 0
    hd.2 hprod (Nat.zero_le _)
  simp only [processInterleaved]
  refine ⟨?_, ?_, ?_, ?_⟩
  · rw [zeroFill_length, hl.1]
  · exact hl.2.1
  · intro i hlo hhi
    exact zeroFill_getD_zero r.channels _ _ i hlo (by rw [hl.1]; exact hhi)
  · rw [hl.2.2, hd.1]
    omega


end StreamingResampler

/-- Pass-through fixture for the C8 witness: one channel, the DSP consumes
one frame per call and produces one zero frame. -/
def resamplerC8 : StreamingResampler :=
  { channels := 1
    inputBuffer := [[]]
    oracle := { framesNeeded := fun _ => 1, produce := fun _ _ => [[0]] }
    callCount := 0 }

/-- Witness for C8: processing one input frame into a two-frame output,
`frames_consumed` accounts exactly for the frame drained from the
accumulation buffer. -/
theorem c8_witness :
    ((resamplerC8.processInterleaved [3] [9, 9]).st.inputBuffer.headD []).length
        + (resamplerC8.processInterleaved [3] [9, 9]).consumed
      = (resamplerC8.inputBuffer.headD []).length
        + ([3] : List Sample).length / resamplerC8.channels :=
  (StreamingResampler.c8_process_interleaved_contract resamplerC8 [3] [9, 9]
    (by decide) (by decide) (fun _ _ => Nat.one_pos)).2.2.2

end PetalSonic
